import Mathlib

/-!
Verification of the NFL player-similarity scoring engine
(`src/models/similarity_v2.py`) against its natural-language specification.

The Python code is shallowly embedded: pandas DataFrames become Lean lists of
structures, SQL-NULL/NaN cells become `Option` or the three-valued `PyNum`
below, and machine floats become rationals.  The floating-point square root
used by `scipy.spatial.distance.cdist` and `pandas.DataFrame.std` is
abstracted as an explicit function parameter `sq : ℚ → ℚ`; every theorem that
depends on it assumes only the properties of a square root that the code
relies on (non-negativity on non-negative inputs, and positivity exactly on
positive inputs), and witnesses instantiate it with a concrete function
satisfying those properties.
-/

namespace SimilarityV2

/-- A Python numeric cell as it appears around the draft-similarity code:
`pynone` is Python `None` (the default of the `PlayerInfo` dataclass fields),
`nan` is a float NaN (how pandas represents SQL NULL after the LEFT JOIN with
the `draft` table), and `val q` is an actual number. -/
inductive PyNum where
  | pynone : PyNum
  | nan : PyNum
  | val : ℚ → PyNum
deriving DecidableEq

/-- `pd.isna`: true on both Python `None` and float NaN. -/
def pyIsNA : PyNum → Bool
  | PyNum.pynone => true
  | PyNum.nan => true
  | PyNum.val _ => false

/-- Python truthiness of a numeric cell: `None` is falsy, NaN is truthy,
a number is truthy exactly when it is nonzero. -/
def pyTruthy : PyNum → Bool
  | PyNum.pynone => false
  | PyNum.nan => true
  | PyNum.val q => if q = 0 then false else true

/-- Subtraction on Python floats; NaN propagates.  (`None` operands would
raise a TypeError in Python; they are unreachable in the embedded code paths,
and we let them propagate like NaN.) -/
def pySub : PyNum → PyNum → PyNum
  | PyNum.val a, PyNum.val b => PyNum.val (a - b)
  | _, _ => PyNum.nan

/-- `abs` on Python floats; NaN propagates. -/
def pyAbs : PyNum → PyNum
  | PyNum.val a => PyNum.val |a|
  | _ => PyNum.nan

/-- Division of a Python float by a nonzero constant; NaN propagates. -/
def pyDivC : PyNum → ℚ → PyNum
  | PyNum.val a, c => PyNum.val (a / c)
  | _, _ => PyNum.nan

/-- `c - x` on Python floats; NaN propagates. -/
def pySubFrom (c : ℚ) : PyNum → PyNum
  | PyNum.val a => PyNum.val (c - a)
  | _ => PyNum.nan

/-- Python `max(0, x)`: `max` keeps the initial `0` when the comparison with
NaN is false, so `max(0, NaN) = 0`. -/
def pyMax0 : PyNum → ℚ
  | PyNum.val a => max 0 a
  | _ => 0

/-- One row of `players_df` (the `players` table LEFT JOINed with `draft`):
missing draft cells are NaN, never Python `None`. -/
structure PlayerRow where
  gsis_id : String
  name : String
  position : String
  first_season : ℤ
  last_season : ℤ
  draft_pick : PyNum
  draft_position_pick : PyNum
deriving DecidableEq

/-- The `PlayerInfo` dataclass as populated by `get_player_info` from a
`players_df` row (`row.get(...)` copies the cells unchanged, so a missing
draft cell stays NaN). -/
structure PlayerInfo where
  gsis_id : String
  name : String
  position : String
  first_season : ℤ
  last_season : ℤ
  seasons_played : ℤ
  draft_pick : PyNum
  draft_position_pick : PyNum
deriving DecidableEq

/-- Build a `PlayerInfo` from a `players_df` row, as `get_player_info` does. -/
def playerInfoOfRow (r : PlayerRow) : PlayerInfo :=
  { gsis_id := r.gsis_id
    name := r.name
    position := r.position
    first_season := r.first_season
    last_season := r.last_season
    seasons_played := r.last_season - r.first_season + 1
    draft_pick := r.draft_pick
    draft_position_pick := r.draft_position_pick }

/-- `get_player_info`: first `players_df` row with the given id, if any. -/
def get_player_info (players_df : List PlayerRow) (gsis_id : String) :
    Option PlayerInfo :=
  (players_df.find? (fun r => r.gsis_id = gsis_id)).map playerInfoOfRow

/-- The draft score of one drafted peer (the body of the per-peer loop in
`_calculate_draft_similarity` after the `pd.isna(peer.get('draft_pick'))`
test has failed). -/
def draftScoreDrafted (target_info : PlayerInfo) (peer : PlayerRow) : ℚ :=
  let pick_diff := pyAbs (pySub peer.draft_pick target_info.draft_pick)
  let pick_score := pyMax0 (pySubFrom 1 (pyDivC pick_diff (32 * 7)))
  let pos_score :=
    if pyTruthy target_info.draft_position_pick &&
        pyTruthy peer.draft_position_pick then
      pyMax0 (pySubFrom 1 (pyDivC
        (pyAbs (pySub peer.draft_position_pick target_info.draft_position_pick)) 15))
    else pick_score
  (pick_score + pos_score) / 2

/-- `_calculate_draft_similarity`: neutral 0.5 for every peer when the
target's `draft_pick` is Python `None`; otherwise 0.3 for peers whose
`draft_pick` is NA, and the drafted-peer formula for the rest. -/
def calculate_draft_similarity (players_df : List PlayerRow)
    (target_info : PlayerInfo) (peer_ids : List String) : List (String × ℚ) :=
  let peers := players_df.filter (fun p => peer_ids.contains p.gsis_id)
  if target_info.draft_pick = PyNum.pynone then
    peer_ids.map (fun pid => (pid, 1/2))
  else
    peers.map (fun peer =>
      if pyIsNA peer.draft_pick then (peer.gsis_id, 3/10)
      else (peer.gsis_id, draftScoreDrafted target_info peer))

/-- The stat schema of `STAT_COLUMNS` in `similarity_v2.py` (ten columns:
nine counting stats plus `fantasy_points_ppr`). -/
inductive StatCol where
  | pass_yards | pass_tds | interceptions
  | rush_yards | rush_tds
  | receptions | receiving_yards | receiving_tds
  | targets | fantasy_points_ppr
deriving DecidableEq

/-- `STAT_COLUMNS`, in source order. -/
def STAT_COLUMNS : List StatCol :=
  [StatCol.pass_yards, StatCol.pass_tds, StatCol.interceptions,
   StatCol.rush_yards, StatCol.rush_tds,
   StatCol.receptions, StatCol.receiving_yards, StatCol.receiving_tds,
   StatCol.targets, StatCol.fantasy_points_ppr]

/-- `POSITION_WEIGHTS['QB']`. -/
def qbWeights : StatCol → ℚ
  | StatCol.pass_yards => 1 | StatCol.pass_tds => 1 | StatCol.interceptions => 1/2
  | StatCol.rush_yards => 3/10 | StatCol.rush_tds => 3/10
  | StatCol.receptions => 0 | StatCol.receiving_yards => 0
  | StatCol.receiving_tds => 0 | StatCol.targets => 0
  | StatCol.fantasy_points_ppr => 1/2

/-- `POSITION_WEIGHTS['RB']`. -/
def rbWeights : StatCol → ℚ
  | StatCol.pass_yards => 0 | StatCol.pass_tds => 0 | StatCol.interceptions => 0
  | StatCol.rush_yards => 1 | StatCol.rush_tds => 1
  | StatCol.receptions => 7/10 | StatCol.receiving_yards => 7/10
  | StatCol.receiving_tds => 7/10 | StatCol.targets => 1/2
  | StatCol.fantasy_points_ppr => 1/2

/-- `POSITION_WEIGHTS['WR']`. -/
def wrWeights : StatCol → ℚ
  | StatCol.pass_yards => 0 | StatCol.pass_tds => 0 | StatCol.interceptions => 0
  | StatCol.rush_yards => 2/10 | StatCol.rush_tds => 2/10
  | StatCol.receptions => 1 | StatCol.receiving_yards => 1
  | StatCol.receiving_tds => 1 | StatCol.targets => 8/10
  | StatCol.fantasy_points_ppr => 1/2

/-- `POSITION_WEIGHTS['TE']`. -/
def teWeights : StatCol → ℚ
  | StatCol.pass_yards => 0 | StatCol.pass_tds => 0 | StatCol.interceptions => 0
  | StatCol.rush_yards => 1/10 | StatCol.rush_tds => 1/10
  | StatCol.receptions => 1 | StatCol.receiving_yards => 1
  | StatCol.receiving_tds => 1 | StatCol.targets => 8/10
  | StatCol.fantasy_points_ppr => 1/2

/-- `POSITION_WEIGHTS.get(position, POSITION_WEIGHTS['WR'])`: lookup with WR
as the fallback for unrecognized positions. -/
def positionWeights (position : String) : StatCol → ℚ :=
  if position = "QB" then qbWeights
  else if position = "RB" then rbWeights
  else if position = "WR" then wrWeights
  else if position = "TE" then teWeights
  else wrWeights

/-- One row of the season-stats view (`stats_df`): the `seasons` table joined
with player name/position, with an `age` column that is NULL when the birth
date is unknown.  Stat cells are `none` when NULL/NaN. -/
structure SeasonRow where
  gsis_id : String
  season : ℤ
  season_number : ℤ
  age : Option ℤ
  position : String
  stats : StatCol → Option ℚ

/-- Comparison mode of `find_similar_players`. -/
inductive Mode where
  | age | season_number
deriving DecidableEq

/-- The comparison column of a season row (`row[comparison_col]`). -/
def cmpVal : Mode → SeasonRow → Option ℤ
  | Mode.age, r => r.age
  | Mode.season_number, r => some r.season_number

/-- The non-NaN values of a pandas numeric column. -/
def presentVals (xs : List (Option ℚ)) : List ℚ := xs.filterMap id

/-- `Series.mean()` (skipna): NaN when no value is present. -/
def colMean (xs : List (Option ℚ)) : Option ℚ :=
  let p := presentVals xs
  if p.length = 0 then none else some (p.sum / (p.length : ℚ))

/-- `Series.var()` (ddof = 1, skipna): NaN with fewer than two values. -/
def colVar (xs : List (Option ℚ)) : Option ℚ :=
  let p := presentVals xs
  if p.length < 2 then none
  else some ((p.map (fun x => (x - p.sum / (p.length : ℚ))^2)).sum /
    ((p.length : ℚ) - 1))

/-- `Series.std()`: the square root of the sample variance. -/
def colStd (sq : ℚ → ℚ) (xs : List (Option ℚ)) : Option ℚ :=
  (colVar xs).map sq

/-- The scaled value of one cell in `_normalize_stats`:
`((x - mean) / std) * weight` when `std > 0` (NaN cells stay NaN), and the
constant 0.0 otherwise (also when std itself is NaN). -/
def scaledValue (sq : ℚ → ℚ) (xs : List (Option ℚ)) (w : ℚ)
    (x : Option ℚ) : Option ℚ :=
  match colStd sq xs with
  | some s =>
    if 0 < s then
      match colMean xs, x with
      | some m, some xv => some ((xv - m) / s * w)
      | _, _ => none
    else some 0
  | none => some 0

/-- A season row together with its `_scaled` columns. -/
structure ScaledRow where
  row : SeasonRow
  scaled : StatCol → Option ℚ

/-- `_normalize_stats`: every stat column of the frame is z-scored over the
whole frame and multiplied by the position weight. -/
def normalize_stats (sq : ℚ → ℚ) (df : List SeasonRow) (position : String) :
    List ScaledRow :=
  df.map (fun r =>
    { row := r
      scaled := fun c =>
        scaledValue sq (df.map (fun s => s.stats c))
          (positionWeights position c) (r.stats c) })

/-- `sorted(target_stats[comparison_col].unique())`, as consumed by the
per-value loops: NaN entries never equal a value under pandas comparison, so
only the distinct non-NaN values matter (the iteration order does not affect
any per-peer aggregate). -/
def comparisonValues (mode : Mode) (target_stats : List SeasonRow) : List ℤ :=
  (target_stats.filterMap (cmpVal mode)).dedup

/-- `.fillna(0)` on one scaled cell. -/
def fillna0 (x : Option ℚ) : ℚ := x.getD 0

/-- The Euclidean distance `cdist(..., 'euclidean')` between two scaled rows
after `.fillna(0)`, over all `_scaled` columns (all ten of `STAT_COLUMNS`). -/
def euclDist (sq : ℚ → ℚ) (a b : ScaledRow) : ℚ :=
  sq ((STAT_COLUMNS.map
    (fun c => (fillna0 (a.scaled c) - fillna0 (b.scaled c))^2)).sum)

/-- The per-(value, peer-row) distance contributions accumulated into
`all_distances` by `_calculate_euclidean_similarity`.  The target frame has
one row per comparison value (one season row per (player, season)), so the
head of the filtered target rows is the single target feature row. -/
def euclContribs (sq : ℚ → ℚ) (mode : Mode)
    (target_stats peer_stats : List ScaledRow) : List (String × ℚ) :=
  (comparisonValues mode (target_stats.map (fun t => t.row))).flatMap (fun v =>
    match target_stats.filter (fun t => cmpVal mode t.row = some v) with
    | [] => []
    | t :: _ =>
      (peer_stats.filter (fun p => cmpVal mode p.row = some v)).map
        (fun p => (p.row.gsis_id, euclDist sq t p)))

/-- The arithmetic mean of a list of rationals. -/
def listMean (xs : List ℚ) : ℚ := xs.sum / (xs.length : ℚ)

/-- Collapse per-unit contributions into one mean score per player id, in
first-occurrence (dict-insertion) order. -/
def scoresOfContribs (contribs : List (String × ℚ)) : List (String × ℚ) :=
  ((contribs.map Prod.fst).dedup).map (fun pid =>
    (pid, listMean ((contribs.filter (fun c => c.1 = pid)).map Prod.snd)))

/-- `_calculate_euclidean_similarity`: mean per-unit Euclidean distance per
peer; peers with no comparable unit are absent from the output. -/
def calculate_euclidean_similarity (sq : ℚ → ℚ) (mode : Mode)
    (target_stats peer_stats : List ScaledRow) : List (String × ℚ) :=
  scoresOfContribs (euclContribs sq mode target_stats peer_stats)

/-- The contributions of one comparison value in
`_calculate_fantasy_similarity`, given the target row at that value: values
where the target's `fantasy_points_ppr` is NaN or exactly 0 are skipped, and
peer rows with NaN `fantasy_points_ppr` are skipped. -/
def fantasyBlock (mode : Mode) (v : ℤ) (t : SeasonRow)
    (peer_stats : List SeasonRow) : List (String × ℚ) :=
  match t.stats StatCol.fantasy_points_ppr with
  | none => []
  | some tf =>
    if tf = 0 then []
    else
      (peer_stats.filter (fun p => cmpVal mode p = some v)).filterMap
        (fun p => (p.stats StatCol.fantasy_points_ppr).map
          (fun pf => (p.gsis_id, |pf - tf| / max tf 1)))

/-- The per-(value, peer-row) relative-deviation contributions accumulated
into `all_diffs` by `_calculate_fantasy_similarity`. -/
def fantasyContribs (mode : Mode) (target_stats peer_stats : List SeasonRow) :
    List (String × ℚ) :=
  (comparisonValues mode target_stats).flatMap (fun v =>
    match target_stats.filter (fun t => cmpVal mode t = some v) with
    | [] => []
    | t :: _ => fantasyBlock mode v t peer_stats)

/-- `_calculate_fantasy_similarity`: mean relative fantasy deviation per
peer, over the raw (unscaled) `fantasy_points_ppr` column. -/
def calculate_fantasy_similarity (mode : Mode)
    (target_stats peer_stats : List SeasonRow) : List (String × ℚ) :=
  scoresOfContribs (fantasyContribs mode target_stats peer_stats)

/-- One row of the merged `scores` frame entering the blend stage: the peer
id with its (possibly missing) component scores after the outer/left
merges. -/
structure BlendEntry where
  gsis_id : String
  eucl : Option ℚ
  fant : Option ℚ
  draft : Option ℚ
deriving DecidableEq

instance : Inhabited BlendEntry := ⟨⟨"", none, none, none⟩⟩

/-- `fillna(column.mean())`: missing cells receive the mean of the present
cells of the same column (no change when the whole column is missing). -/
def fillCol (xs : List (Option ℚ)) : List (Option ℚ) :=
  xs.map (fun x => match x with
    | some v => some v
    | none => colMean xs)

/-- `Series.min()` (skipna). -/
def colMin (xs : List (Option ℚ)) : Option ℚ := (presentVals xs).min?

/-- `Series.max()` (skipna). -/
def colMax (xs : List (Option ℚ)) : Option ℚ := (presentVals xs).max?

/-- The `_norm` column of a component: min-max normalization when
`max_val > min_val`, and the constant 0.5 otherwise (a NaN min or max also
fails the comparison, giving the 0.5 branch). -/
def normCol (xs : List (Option ℚ)) : List (Option ℚ) :=
  match colMin xs, colMax xs with
  | some mn, some mx =>
    if mn < mx then xs.map (Option.map (fun x => (x - mn) / (mx - mn)))
    else xs.map (fun _ => some (1/2))
  | _, _ => xs.map (fun _ => some (1/2))

/-- The euclidean column after the cohort-mean `fillna`. -/
def euclFilled (entries : List BlendEntry) : List (Option ℚ) :=
  fillCol (entries.map (fun e => e.eucl))

/-- The fantasy column after the cohort-mean `fillna`. -/
def fantFilled (entries : List BlendEntry) : List (Option ℚ) :=
  fillCol (entries.map (fun e => e.fant))

/-- The draft column after the cohort-mean `fillna`. -/
def draftFilled (entries : List BlendEntry) : List (Option ℚ) :=
  fillCol (entries.map (fun e => e.draft))

/-- The `euclidean_score_norm` column. -/
def euclNormCol (entries : List BlendEntry) : List (Option ℚ) :=
  normCol (euclFilled entries)

/-- The `fantasy_score_norm` column. -/
def fantNormCol (entries : List BlendEntry) : List (Option ℚ) :=
  normCol (fantFilled entries)

/-- Whether the `euclidean_score` column exists in the merged frame: it does
exactly when `_calculate_euclidean_similarity` produced at least one row. -/
def hasEuclCol (entries : List BlendEntry) : Bool :=
  entries.any (fun e => e.eucl.isSome)

/-- Whether the `fantasy_score` column exists in the merged frame. -/
def hasFantCol (entries : List BlendEntry) : Bool :=
  entries.any (fun e => e.fant.isSome)

/-- The blended `similarity_score` of the `i`-th row:
`0.4 * euclidean_score_norm + 0.4 * fantasy_score_norm` (each term only when
its column exists) plus `0.2 * (1 - draft_score.fillna(0.5))`.  The inner
`getD` fallbacks are unreachable whenever the corresponding column exists,
since the mean-fill leaves no missing cell in a column that has one. -/
def similarityAt (entries : List BlendEntry) (i : ℕ) : ℚ :=
  (if hasEuclCol entries
    then 0.4 * (((euclNormCol entries).getD i none).getD 0) else 0) +
  (if hasFantCol entries
    then 0.4 * (((fantNormCol entries).getD i none).getD 0) else 0) +
  0.2 * (1 - (((draftFilled entries).getD i none).getD (1/2)))

/-- The blend stage of `find_similar_players` (lines 546-570): cohort-mean
imputation, min-max normalization, and the 0.4/0.4/0.2 weighted combination,
one output row per input row. -/
def blendScores (entries : List BlendEntry) : List (String × ℚ) :=
  (List.range entries.length).map (fun i =>
    ((entries.getD i default).gsis_id, similarityAt entries i))

/-- The ranker: `sort_values('similarity_score').head(max_results)` — an
ascending sort by score (pandas' default quicksort fixes no tie order, so an
insertion sort is an equally faithful model) truncated to `max_results`. -/
def rankScores (scores : List (String × ℚ)) (max_results : ℕ) :
    List (String × ℚ) :=
  (scores.insertionSort (fun a b => a.2 ≤ b.2)).take max_results

/-- Lookup of a merged component score by player id. -/
def lookupScore (l : List (String × ℚ)) (pid : String) : Option ℚ :=
  (l.find? (fun p => p.1 = pid)).map Prod.snd

/-- Season rows passing the row-level peer filters (not the target, career
started strictly earlier, same position, comparison column within
[cmin, cmax]; a NaN comparison value fails the range test). -/
def basePeerStats (mode : Mode) (stats_df : List SeasonRow)
    (earlier : List String) (gsis_id position : String) (cmin cmax : ℤ) :
    List SeasonRow :=
  stats_df.filter (fun r =>
    decide (r.gsis_id ≠ gsis_id) && earlier.contains r.gsis_id &&
    decide (r.position = position) &&
    (match cmpVal mode r with
     | some v => decide (cmin ≤ v) && decide (v ≤ cmax)
     | none => false))

/-- `groupby('gsis_id')[comparison_col].nunique()` for one player over a row
set (distinct non-NaN comparison values). -/
def nuniqueCmp (mode : Mode) (rows : List SeasonRow) (pid : String) : ℕ :=
  (((rows.filter (fun r => r.gsis_id = pid)).filterMap (cmpVal mode)).dedup).length

/-- The peer-selection stage: row-level filters, then the per-mode coverage
threshold (full window for season-number mode, at least
`max(1, num_units // 2)` distinct values for age mode). -/
def peerStatsFor (mode : Mode) (stats_df : List SeasonRow)
    (earlier : List String) (gsis_id position : String) (cmin cmax : ℤ) :
    List SeasonRow :=
  let base := basePeerStats mode stats_df earlier gsis_id position cmin cmax
  let threshold : ℤ :=
    match mode with
    | Mode.season_number => cmax - cmin + 1
    | Mode.age => max 1 (Int.fdiv (cmax - cmin + 1) 2)
  base.filter (fun r => threshold ≤ (nuniqueCmp mode base r.gsis_id : ℤ))

/-- The upper end of the season-number comparison window:
`min(through_season, target_stats['season_number'].max())` when
`through_season` is supplied, the target's own maximum otherwise.  (The
`getD 0` fallback is unreachable: the target's stats are nonempty when this
is evaluated.) -/
def seasonWindowMax (target_stats0 : List SeasonRow)
    (through_season : Option ℤ) : ℤ :=
  let tmax := ((target_stats0.map (fun r => r.season_number)).max?).getD 0
  match through_season with
  | some t => min t tmax
  | none => tmax

/-- The comparison range and window-restricted target stats computed at the
top of `find_similar_players`: `none` models NaN bounds (age mode with every
age NULL). -/
def windowAndTarget (mode : Mode) (target_stats0 : List SeasonRow)
    (through_season : Option ℤ) : Option ((ℤ × ℤ) × List SeasonRow) :=
  match mode with
  | Mode.season_number =>
    let cmax := seasonWindowMax target_stats0 through_season
    some ((1, cmax), target_stats0.filter (fun r =>
      1 ≤ r.season_number ∧ r.season_number ≤ cmax))
  | Mode.age =>
    let ages := target_stats0.filterMap (fun r => r.age)
    match ages.min?, ages.max? with
    | some mn, some mx => some ((mn, mx), target_stats0)
    | _, _ => none

/-- The result record of `find_similar_players`; `similar_players` keeps the
(id, similarity_score) projection of the ranked frame, and
`comparison_range = none` models the `(None, None)` range. -/
structure SimResult where
  target_player : PlayerInfo
  similar_players : List (String × ℚ)
  comparison_mode : Mode
  comparison_range : Option (ℤ × ℤ)
deriving DecidableEq

/-- `find_similar_players`: the full pipeline, from target lookup to the
ranked list.  Raises (models `raise ValueError`) exactly on a missing
profile or missing season stats; every other path returns a result. -/
def find_similar_players (sq : ℚ → ℚ) (stats_df : List SeasonRow)
    (players_df : List PlayerRow) (gsis_id : String) (mode : Mode)
    (max_results : ℕ) (through_season : Option ℤ) : Except String SimResult :=
  match get_player_info players_df gsis_id with
  | none => Except.error ("Player not found: " ++ gsis_id)
  | some target_info =>
    let target_stats0 := stats_df.filter (fun r => r.gsis_id = gsis_id)
    if target_stats0.isEmpty then
      Except.error ("No stats found for player: " ++ gsis_id)
    else
      let position := target_info.position
      match windowAndTarget mode target_stats0 through_season with
      | none =>
        -- NaN comparison bounds: warn and return an empty result
        Except.ok
          { target_player := target_info
            similar_players := []
            comparison_mode := mode
            comparison_range := none }
      | some ((cmin, cmax), target_stats) =>
        let earlier := (players_df.filter
          (fun p => p.first_season < target_info.first_season)).map
            (fun p => p.gsis_id)
        let peer_stats :=
          peerStatsFor mode stats_df earlier gsis_id position cmin cmax
        if peer_stats.isEmpty then
          Except.ok
            { target_player := target_info
              similar_players := []
              comparison_mode := mode
              comparison_range := some (cmin, cmax) }
        else
          let all_stats := target_stats ++ peer_stats
          let all_norm := normalize_stats sq all_stats position
          let target_norm := all_norm.filter (fun r => r.row.gsis_id = gsis_id)
          let peer_norm := all_norm.filter (fun r => r.row.gsis_id ≠ gsis_id)
          let eucl := calculate_euclidean_similarity sq mode target_norm peer_norm
          let fant := calculate_fantasy_similarity mode
            (target_norm.map (fun r => r.row)) (peer_norm.map (fun r => r.row))
          if eucl.isEmpty && fant.isEmpty then
            Except.ok
              { target_player := target_info
                similar_players := []
                comparison_mode := mode
                comparison_range := some (cmin, cmax) }
          else
            -- outer merge of the two component frames, then a left merge of
            -- the draft frame
            let ids := (eucl.map Prod.fst) ++
              ((fant.map Prod.fst).filter (fun pid =>
                decide (¬ (eucl.map Prod.fst).contains pid)))
            let draft := calculate_draft_similarity players_df target_info ids
            let entries : List BlendEntry := ids.map (fun pid =>
              { gsis_id := pid
                eucl := lookupScore eucl pid
                fant := lookupScore fant pid
                draft := lookupScore draft pid })
            Except.ok
              { target_player := target_info
                similar_players := rankScores (blendScores entries) max_results
                comparison_mode := mode
                comparison_range := some (cmin, cmax) }

/-! ### Concrete inputs used by witnesses and counterexamples -/

/-- A `players_df` row of an undrafted target: the LEFT JOIN with `draft`
produced SQL NULLs, which pandas materializes as NaN cells. -/
def undraftedTargetRow : PlayerRow :=
  { gsis_id := "T1", name := "Target One", position := "WR"
    first_season := 2018, last_season := 2023
    draft_pick := PyNum.nan, draft_position_pick := PyNum.nan }

/-- A drafted peer (overall pick 10, third at his position). -/
def peerRowP1 : PlayerRow :=
  { gsis_id := "P1", name := "Peer One", position := "WR"
    first_season := 2010, last_season := 2016
    draft_pick := PyNum.val 10, draft_position_pick := PyNum.val 3 }

/-- A drafted target (overall pick 10, second at his position). -/
def draftedTargetRow : PlayerRow :=
  { gsis_id := "T2", name := "Target Two", position := "WR"
    first_season := 2018, last_season := 2023
    draft_pick := PyNum.val 10, draft_position_pick := PyNum.val 2 }

/-- A drafted peer whose position-pick rank is unknown (NaN from the JOIN):
same overall pick as `draftedTargetRow`. -/
def peerRowP2 : PlayerRow :=
  { gsis_id := "P2", name := "Peer Two", position := "WR"
    first_season := 2010, last_season := 2016
    draft_pick := PyNum.val 10, draft_position_pick := PyNum.nan }

/-- A concrete stand-in for the floating-point square root, used to
instantiate `sq` in witnesses: it is non-negative on non-negative inputs and
positive exactly on positive inputs, which is all the embedded code relies
on. -/
def sqModel : ℚ → ℚ := fun q => max q 0

/-- An all-missing stat record. -/
def noStats : StatCol → Option ℚ := fun _ => none

/-- A season row with the given id, position, season number and fantasy
points, age unknown. -/
def mkSeason (g pos : String) (n : ℤ) (fp : Option ℚ) : SeasonRow :=
  { gsis_id := g, season := 2000 + n, season_number := n, age := none
    position := pos
    stats := fun c => match c with
      | StatCol.fantasy_points_ppr => fp
      | _ => none }

/-- A six-season target career used to instantiate the season-number window
claims. -/
def witTargetStats : List SeasonRow :=
  [mkSeason ("T1") ("WR") 1 (some 100), mkSeason ("T1") ("WR") 2 (some 110),
   mkSeason ("T1") ("WR") 3 (some 120), mkSeason ("T1") ("WR") 4 (some 130),
   mkSeason ("T1") ("WR") 5 (some 140), mkSeason ("T1") ("WR") 6 (some 150)]

/-- A one-season stats table holding only the target's row. -/
def witStats : List SeasonRow := [mkSeason ("T1") ("WR") 1 (some 100)]

instance : Std.Antisymm (fun a b : ℚ => a ≤ b) := ⟨@le_antisymm ℚ _⟩

/-- A two-candidate blend input with every component present. -/
def witEntriesC1 : List BlendEntry :=
  [{ gsis_id := "A", eucl := some 1, fant := some 3, draft := some 1 },
   { gsis_id := "B", eucl := some 2, fant := some 4, draft := some 0 }]

/-- A three-candidate blend input whose third candidate is missing its
euclidean score. -/
def witEntriesC8 : List BlendEntry :=
  [{ gsis_id := "A", eucl := some 1, fant := some 3, draft := some 1 },
   { gsis_id := "B", eucl := some 3, fant := some 4, draft := some 0 },
   { gsis_id := "C", eucl := none, fant := some 5, draft := some 1 }]

/-- A two-row pool whose fantasy column is constant (zero variance). -/
def witVarStats : List SeasonRow :=
  [mkSeason ("T1") ("WR") 1 (some 5), mkSeason ("P1") ("WR") 1 (some 5)]

/-- A scaled target row with every scaled cell missing. -/
def witScaledT : ScaledRow :=
  { row := mkSeason ("T1") ("WR") 1 (some 100), scaled := noStats }

/-- A scaled peer row with every scaled cell 0. -/
def witScaledP : ScaledRow :=
  { row := mkSeason ("P1") ("WR") 1 (some 90), scaled := fun _ => some 0 }

/-- Claim-side (C4, amended): the per-window-value Euclidean distances of
one peer — one entry for every window value where the target has a
scaled-stat row, per peer row at that value (a single row per value under
the (player, season) uniqueness invariant). -/
def specEuclDists (sq : ℚ → ℚ) (mode : Mode)
    (target_stats peer_stats : List ScaledRow) (p : String) : List ℚ :=
  (comparisonValues mode (target_stats.map (fun t => t.row))).flatMap (fun v =>
    match target_stats.filter (fun t => cmpVal mode t.row = some v) with
    | [] => []
    | t :: _ =>
      (peer_stats.filter (fun r => r.row.gsis_id = p ∧
        cmpVal mode r.row = some v)).map (fun pr => euclDist sq t pr))

/-- Claim-side (C4, as frozen): Euclidean distance over only the nine
counting-stat columns, excluding `fantasy_points_ppr` — the natural reading
of the claim's "9 weighted stat categories". -/
def euclDistNine (sq : ℚ → ℚ) (a b : ScaledRow) : ℚ :=
  sq (((STAT_COLUMNS.filter (fun c => c ≠ StatCol.fantasy_points_ppr)).map
    (fun c => (fillna0 (a.scaled c) - fillna0 (b.scaled c))^2)).sum)

/-- Claim-side (C5): the per-window-value relative fantasy deviations of one
peer — one entry per peer row at a window value where the target's fantasy
points are present and nonzero and the peer's are present. -/
def fantasyBlockSpec (mode : Mode) (v : ℤ) (p : String) (t : SeasonRow)
    (peer_stats : List SeasonRow) : List ℚ :=
  match t.stats StatCol.fantasy_points_ppr with
  | none => []
  | some tf =>
    if tf = 0 then []
    else (peer_stats.filter (fun r => r.gsis_id = p ∧
        cmpVal mode r = some v)).filterMap
      (fun r => (r.stats StatCol.fantasy_points_ppr).map
        (fun pf => |pf - tf| / max tf 1))

/-- Claim-side (C5), assembled over the window. -/
def specFantasyDevs (mode : Mode) (target_stats peer_stats : List SeasonRow)
    (p : String) : List ℚ :=
  (comparisonValues mode target_stats).flatMap (fun v =>
    match target_stats.filter (fun t => cmpVal mode t = some v) with
    | [] => []
    | t :: _ => fantasyBlockSpec mode v p t peer_stats)

/-- A scaled peer row that differs from an all-zero row only in the scaled
`fantasy_points_ppr` column. -/
def witScaledPF : ScaledRow :=
  { row := mkSeason ("P1") ("WR") 1 (some 90)
    scaled := fun c => match c with
      | StatCol.fantasy_points_ppr => some 3
      | _ => some 0 }

/-- The spec's fantasy scenario: target fantasy points [300, 280] over two
window units. -/
def witFantasyT : List SeasonRow :=
  [mkSeason ("T1") ("WR") 1 (some 300), mkSeason ("T1") ("WR") 2 (some 280)]

/-- The spec's fantasy scenario: peer fantasy points [310, 270]. -/
def witFantasyP : List SeasonRow :=
  [mkSeason ("P1") ("WR") 1 (some 310), mkSeason ("P1") ("WR") 2 (some 270)]

end SimilarityV2

namespace SimilarityV2

/-! ### Theorems -/

/-- Membership in the row-level peer filter. -/
theorem mem_basePeerStats {mode : Mode} {stats_df : List SeasonRow}
    {earlier : List String} {gsis_id position : String} {cmin cmax : ℤ}
    {r : SeasonRow} :
    r ∈ basePeerStats mode stats_df earlier gsis_id position cmin cmax ↔
      r ∈ stats_df ∧ r.gsis_id ≠ gsis_id ∧ r.gsis_id ∈ earlier ∧
      r.position = position ∧
      ∃ v, cmpVal mode r = some v ∧ cmin ≤ v ∧ v ≤ cmax := by
  unfold basePeerStats
  rw [List.mem_filter]
  cases hv : cmpVal mode r with
  | none => simp [hv]
  | some v =>
    simp only [hv, Bool.and_eq_true, decide_eq_true_eq]
    constructor
    · rintro ⟨hr, ⟨⟨⟨h1, h2⟩, h3⟩, h4⟩⟩
      exact ⟨hr, h1, by simpa using h2, h3, v, rfl, h4.1, h4.2⟩
    · rintro ⟨hr, h1, h2, h3, v', hv', hb1, hb2⟩
      injection hv' with hvv
      subst hvv
      exact ⟨hr, ⟨⟨⟨h1, by simpa using h2⟩, h3⟩, hb1, hb2⟩⟩

/-- Membership in the coverage-thresholded peer selection. -/
theorem mem_peerStatsFor {mode : Mode} {stats_df : List SeasonRow}
    {earlier : List String} {gsis_id position : String} {cmin cmax : ℤ}
    {r : SeasonRow} :
    r ∈ peerStatsFor mode stats_df earlier gsis_id position cmin cmax ↔
      r ∈ basePeerStats mode stats_df earlier gsis_id position cmin cmax ∧
      (match mode with
       | Mode.season_number => cmax - cmin + 1
       | Mode.age => max 1 (Int.fdiv (cmax - cmin + 1) 2)) ≤
        (nuniqueCmp mode
          (basePeerStats mode stats_df earlier gsis_id position cmin cmax)
          r.gsis_id : ℤ) := by
  simp [peerStatsFor, List.mem_filter]

/-- The season-number coverage count reaches `cmax` exactly when every
season number in [1, cmax] is present among the player's rows, provided all
of the player's rows lie in [1, cmax]. -/
theorem nunique_coverage_iff {rows : List SeasonRow} {p : String} {cmax : ℤ}
    (hcmax : 1 ≤ cmax)
    (hbound : ∀ r ∈ rows, r.gsis_id = p →
      1 ≤ r.season_number ∧ r.season_number ≤ cmax) :
    cmax ≤ (nuniqueCmp Mode.season_number rows p : ℤ) ↔
      ∀ k : ℤ, 1 ≤ k → k ≤ cmax →
        ∃ r ∈ rows, r.gsis_id = p ∧ r.season_number = k := by
  have hvals : ((rows.filter (fun r => r.gsis_id = p)).filterMap
      (cmpVal Mode.season_number)) =
      (rows.filter (fun r => r.gsis_id = p)).map (fun r => r.season_number) := by
    induction rows.filter (fun r => r.gsis_id = p) with
    | nil => rfl
    | cons a t ih => simp [List.filterMap_cons, cmpVal, ih]
  have hcard : nuniqueCmp Mode.season_number rows p =
      ((rows.filter (fun r => r.gsis_id = p)).map
        (fun r => r.season_number)).toFinset.card := by
    rw [nuniqueCmp, hvals, List.card_toFinset]
  have hsub : ((rows.filter (fun r => r.gsis_id = p)).map
      (fun r => r.season_number)).toFinset ⊆ Finset.Icc 1 cmax := by
    intro v hv
    rw [List.mem_toFinset, List.mem_map] at hv
    obtain ⟨r, hr, rfl⟩ := hv
    rw [List.mem_filter, decide_eq_true_eq] at hr
    obtain ⟨hr1, hr2⟩ := hr
    exact Finset.mem_Icc.mpr (hbound r hr1 hr2)
  have hIcc : (Finset.Icc (1 : ℤ) cmax).card = cmax.toNat := by
    rw [Int.card_Icc]; omega
  constructor
  · intro h k h1k hkc
    rw [hcard] at h
    have hTcard : (Finset.Icc (1 : ℤ) cmax).card ≤
        ((rows.filter (fun r => r.gsis_id = p)).map
          (fun r => r.season_number)).toFinset.card := by
      rw [hIcc]; omega
    have heq := Finset.eq_of_subset_of_card_le hsub hTcard
    have hk : k ∈ ((rows.filter (fun r => r.gsis_id = p)).map
        (fun r => r.season_number)).toFinset := by
      rw [heq]; exact Finset.mem_Icc.mpr ⟨h1k, hkc⟩
    rw [List.mem_toFinset, List.mem_map] at hk
    obtain ⟨r, hr, hrk⟩ := hk
    rw [List.mem_filter, decide_eq_true_eq] at hr
    exact ⟨r, hr.1, hr.2, hrk⟩
  · intro hcov
    have hsup : Finset.Icc (1 : ℤ) cmax ⊆
        ((rows.filter (fun r => r.gsis_id = p)).map
          (fun r => r.season_number)).toFinset := by
      intro k hk
      rw [Finset.mem_Icc] at hk
      obtain ⟨r, hr, hrp, hrk⟩ := hcov k hk.1 hk.2
      rw [List.mem_toFinset, List.mem_map]
      exact ⟨r, List.mem_filter.mpr ⟨hr, decide_eq_true_eq.mpr hrp⟩, hrk⟩
    have := Finset.card_le_card hsup
    rw [hIcc] at this
    rw [hcard]
    omega

/-- C2: in season-number mode a player appears in the selected peer cohort
exactly when it is not the target, its career started strictly before the
target's first season, and it has a season record (with the target's
position) for every season number in [1, cmax]; and the window's upper end
is `min(through_season, target's largest season number)` when
`through_season` is supplied, the target's largest season number
otherwise. -/
theorem season_cohort_mem_iff
    (stats_df : List SeasonRow) (players_df : List PlayerRow)
    (gsis_id position : String) (tfirst cmax : ℤ) (p : String)
    (target_stats0 : List SeasonRow) (ts tmax : ℤ)
    (hcmax : 1 ≤ cmax)
    (hts : (target_stats0.map (fun r => r.season_number)).max? = some tmax) :
    ((∃ r ∈ peerStatsFor Mode.season_number stats_df
        ((players_df.filter (fun q => q.first_season < tfirst)).map
          (fun q => q.gsis_id)) gsis_id position 1 cmax, r.gsis_id = p) ↔
      (p ≠ gsis_id ∧
       (∃ q ∈ players_df, q.gsis_id = p ∧ q.first_season < tfirst) ∧
       (∀ k : ℤ, 1 ≤ k → k ≤ cmax →
         ∃ r ∈ stats_df, r.gsis_id = p ∧ r.position = position ∧
           r.season_number = k))) ∧
    seasonWindowMax target_stats0 (some ts) = min ts tmax ∧
    seasonWindowMax target_stats0 none = tmax := by
  have hbound : ∀ r ∈ basePeerStats Mode.season_number stats_df
      ((players_df.filter (fun q => q.first_season < tfirst)).map
        (fun q => q.gsis_id)) gsis_id position 1 cmax,
      r.gsis_id = p → 1 ≤ r.season_number ∧ r.season_number ≤ cmax := by
    intro r hr _
    rw [mem_basePeerStats] at hr
    obtain ⟨_, _, _, _, v, hv, h1, h2⟩ := hr
    rw [cmpVal] at hv
    injection hv with hvv
    subst hvv
    exact ⟨h1, h2⟩
  refine ⟨?_, by simp [seasonWindowMax, hts], by simp [seasonWindowMax, hts]⟩
  constructor
  · rintro ⟨r, hr, rfl⟩
    rw [mem_peerStatsFor] at hr
    obtain ⟨hbase, hth⟩ := hr
    have hb := hbase
    rw [mem_basePeerStats] at hb
    obtain ⟨hrs, hneq, hearly, hpos, v, hv, h1v, hvc⟩ := hb
    refine ⟨hneq, ?_, ?_⟩
    · rw [List.mem_map] at hearly
      obtain ⟨a, ha, haid⟩ := hearly
      rw [List.mem_filter, decide_eq_true_eq] at ha
      exact ⟨a, ha.1, haid, ha.2⟩
    · have hth2 : cmax ≤ (nuniqueCmp Mode.season_number
          (basePeerStats Mode.season_number stats_df
            ((players_df.filter (fun q => q.first_season < tfirst)).map
              (fun q => q.gsis_id)) gsis_id position 1 cmax) r.gsis_id : ℤ) := by
        have : cmax - 1 + 1 = cmax := by ring
        simpa [this] using hth
      intro k h1k hkc
      obtain ⟨r', hr', hrp', hrk'⟩ :=
        (nunique_coverage_iff hcmax hbound).mp hth2 k h1k hkc
      rw [mem_basePeerStats] at hr'
      exact ⟨r', hr'.1, hrp', hr'.2.2.2.1, hrk'⟩
  · rintro ⟨hneq, ⟨q, hq, hqid, hqf⟩, hcov⟩
    have hearly : p ∈ (players_df.filter
        (fun q => q.first_season < tfirst)).map (fun q => q.gsis_id) := by
      rw [List.mem_map]
      exact ⟨q, List.mem_filter.mpr ⟨hq, decide_eq_true_eq.mpr hqf⟩, hqid⟩
    have hrow : ∀ k : ℤ, 1 ≤ k → k ≤ cmax →
        ∃ r ∈ basePeerStats Mode.season_number stats_df
          ((players_df.filter (fun q => q.first_season < tfirst)).map
            (fun q => q.gsis_id)) gsis_id position 1 cmax,
          r.gsis_id = p ∧ r.season_number = k := by
      intro k h1k hkc
      obtain ⟨r, hr, hrp, hrpos, hrk⟩ := hcov k h1k hkc
      refine ⟨r, ?_, hrp, hrk⟩
      rw [mem_basePeerStats]
      exact ⟨hr, by rw [hrp]; exact hneq, by rw [hrp]; exact hearly, hrpos,
        r.season_number, rfl, by omega, by omega⟩
    obtain ⟨r1, hr1, hr1p, _⟩ := hrow 1 le_rfl hcmax
    refine ⟨r1, ?_, hr1p⟩
    rw [mem_peerStatsFor]
    refine ⟨hr1, ?_⟩
    have hth2 : cmax ≤ (nuniqueCmp Mode.season_number
        (basePeerStats Mode.season_number stats_df
          ((players_df.filter (fun q => q.first_season < tfirst)).map
            (fun q => q.gsis_id)) gsis_id position 1 cmax) p : ℤ) := by
      rw [nunique_coverage_iff hcmax hbound]
      intro k h1k hkc
      obtain ⟨r, hr, hrp, hrk⟩ := hrow k h1k hkc
      exact ⟨r, hr, hrp, hrk⟩
    have : cmax - 1 + 1 = cmax := by ring
    rw [hr1p]
    simpa [this] using hth2

/-- Witness for C2 at a concrete input: a cap of 3 on a six-season target
gives the window [1, 3]. -/
theorem season_cohort_mem_iff_witness :
    ((1 : ℤ) ≤ 3) ∧
    ((witTargetStats.map (fun r => r.season_number)).max? = some 6) ∧
    seasonWindowMax witTargetStats (some 3) = min 3 6 := by
  have h1 : (1 : ℤ) ≤ 3 := by norm_num
  have h2 : (witTargetStats.map (fun r => r.season_number)).max? = some 6 := by
    decide
  exact ⟨h1, h2, (season_cohort_mem_iff [] [] ("T1") ("WR") 0 3 ("p")
    witTargetStats 3 6 h1 h2).2.1⟩

/-- C3: the draft-capital scorer evaluated at its failing inputs.  A target
whose draft pick is missing in the database reaches `_calculate_draft_similarity`
with a NaN (not `None`) `draft_pick`, so the `is None` guard does not fire
and a drafted peer receives `draft_score = 0` (from `max(0, 1 - NaN) = 0`)
instead of the neutral 0.5 the spec and the code's own comment promise; and
a drafted peer with an unknown (NaN, hence truthy) position pick receives
`(pick_score + 0)/2` instead of falling back to `pick_score` (here 1/2
instead of 1). -/
theorem draft_similarity_nan_divergence :
    calculate_draft_similarity [peerRowP1] (playerInfoOfRow undraftedTargetRow)
        ["P1"] = [("P1", 0)] ∧
    calculate_draft_similarity [peerRowP2] (playerInfoOfRow draftedTargetRow)
        ["P2"] = [("P2", 1/2)] ∧
    ((0 : ℚ) ≠ 1/2 ∧ (1/2 : ℚ) ≠ 1) := by
  refine ⟨?_, ?_, by norm_num⟩ <;>
    simp [calculate_draft_similarity, draftScoreDrafted, playerInfoOfRow,
      undraftedTargetRow, draftedTargetRow, peerRowP1, peerRowP2,
      pyIsNA, pyTruthy, pySub, pyAbs, pyDivC, pySubFrom, pyMax0]

/-- Every path of `find_similar_players` past the two lookups returns a
normal result. -/
theorem find_similar_players_ok_of (sq : ℚ → ℚ) (stats_df : List SeasonRow)
    (players_df : List PlayerRow) (gsis_id : String) (mode : Mode)
    (max_results : ℕ) (through_season : Option ℤ) (info : PlayerInfo)
    (hpi : get_player_info players_df gsis_id = some info)
    (hne : stats_df.filter (fun r => r.gsis_id = gsis_id) ≠ []) :
    ∃ res, find_similar_players sq stats_df players_df gsis_id mode
      max_results through_season = Except.ok res := by
  have hne2 : (stats_df.filter (fun r => r.gsis_id = gsis_id)).isEmpty = false := by
    exact List.isEmpty_eq_false.mpr hne
  simp only [find_similar_players, hpi, hne2, Bool.false_eq_true, if_false]
  split
  · exact ⟨_, rfl⟩
  · split
    · exact ⟨_, rfl⟩
    · split
      · exact ⟨_, rfl⟩
      · exact ⟨_, rfl⟩

/-- C6: `find_similar_players` raises exactly when the target id has no
profile row or no season rows; a NaN comparison range (age mode with every
age NULL) yields a normal result with an empty list and a `(None, None)`
range; and an empty peer cohort yields a normal result with an empty list
and the attempted range echoed back. -/
theorem find_similar_players_error_iff (sq : ℚ → ℚ) (stats_df : List SeasonRow)
    (players_df : List PlayerRow) (gsis_id : String) (mode : Mode)
    (max_results : ℕ) (through_season : Option ℤ) :
    ((∃ e, find_similar_players sq stats_df players_df gsis_id mode
        max_results through_season = Except.error e) ↔
      ((∀ q ∈ players_df, q.gsis_id ≠ gsis_id) ∨
       (∀ r ∈ stats_df, r.gsis_id ≠ gsis_id))) ∧
    (∀ info, get_player_info players_df gsis_id = some info →
      stats_df.filter (fun r => r.gsis_id = gsis_id) ≠ [] →
      windowAndTarget mode (stats_df.filter (fun r => r.gsis_id = gsis_id))
        through_season = none →
      find_similar_players sq stats_df players_df gsis_id mode max_results
        through_season = Except.ok
          { target_player := info, similar_players := []
            comparison_mode := mode, comparison_range := none }) ∧
    (∀ info cmin cmax tstats,
      get_player_info players_df gsis_id = some info →
      stats_df.filter (fun r => r.gsis_id = gsis_id) ≠ [] →
      windowAndTarget mode (stats_df.filter (fun r => r.gsis_id = gsis_id))
        through_season = some ((cmin, cmax), tstats) →
      peerStatsFor mode stats_df
        ((players_df.filter
          (fun q => q.first_season < info.first_season)).map
            (fun q => q.gsis_id)) gsis_id info.position cmin cmax = [] →
      find_similar_players sq stats_df players_df gsis_id mode max_results
        through_season = Except.ok
          { target_player := info, similar_players := []
            comparison_mode := mode, comparison_range := some (cmin, cmax) }) := by
  refine ⟨⟨?_, ?_⟩, ?_, ?_⟩
  · rintro ⟨e, he⟩
    by_cases hpi : get_player_info players_df gsis_id = none
    · left
      intro q hq hqid
      have hfind : players_df.find? (fun r => r.gsis_id = gsis_id) = none := by
        unfold get_player_info at hpi
        exact Option.map_eq_none'.mp hpi
      have hn := List.find?_eq_none.mp hfind q hq
      simp [hqid] at hn
    · obtain ⟨info, hinfo⟩ := Option.ne_none_iff_exists'.mp hpi
      right
      by_cases hf : stats_df.filter (fun x => x.gsis_id = gsis_id) = []
      · intro r hr hrid
        have hmem : r ∈ stats_df.filter (fun x => x.gsis_id = gsis_id) :=
          List.mem_filter.mpr ⟨hr, by simp [hrid]⟩
        rw [hf] at hmem
        cases hmem
      · exfalso
        obtain ⟨res, hres⟩ := find_similar_players_ok_of sq stats_df
          players_df gsis_id mode max_results through_season info hinfo hf
        rw [hres] at he
        cases he
  · intro h
    cases h with
    | inl hnop =>
      have hpi : get_player_info players_df gsis_id = none := by
        unfold get_player_info
        rw [List.find?_eq_none.mpr (fun q hq => by simp [hnop q hq])]
        rfl
      exact ⟨("Player not found: " ++ gsis_id),
        by simp [find_similar_players, hpi]⟩
    | inr hnos =>
      cases hpi : get_player_info players_df gsis_id with
      | none => exact ⟨("Player not found: " ++ gsis_id),
          by simp [find_similar_players, hpi]⟩
      | some info =>
        have hf : stats_df.filter (fun x => x.gsis_id = gsis_id) = [] :=
          List.filter_eq_nil_iff.mpr (fun r hr => by simp [hnos r hr])
        have hf2 : (stats_df.filter (fun x => x.gsis_id = gsis_id)).isEmpty =
            true := List.isEmpty_iff.mpr hf
        exact ⟨("No stats found for player: " ++ gsis_id),
          by simp [find_similar_players, hpi, hf2]⟩
  · intro info hinfo hne hwin
    have hne2 := List.isEmpty_eq_false.mpr hne
    simp [find_similar_players, hinfo, hne2, hwin]
  · intro info cmin cmax tstats hinfo hne hwin hpeers
    have hne2 := List.isEmpty_eq_false.mpr hne
    have hpe : (peerStatsFor mode stats_df
        ((players_df.filter
          (fun q => q.first_season < info.first_season)).map
            (fun q => q.gsis_id)) gsis_id info.position cmin cmax).isEmpty =
        true := List.isEmpty_iff.mpr hpeers
    simp [find_similar_players, hinfo, hne2, hwin, hpe]

/-- Witness for C6 at concrete inputs: an all-NULL age column gives an empty
result with a `(None, None)` range, and an empty peer cohort gives an empty
result with the range echoed. -/
theorem find_similar_players_error_iff_witness :
    find_similar_players sqModel witStats [undraftedTargetRow] ("T1")
      Mode.age 20 none = Except.ok
        { target_player := playerInfoOfRow undraftedTargetRow
          similar_players := [], comparison_mode := Mode.age
          comparison_range := none } ∧
    find_similar_players sqModel witStats [undraftedTargetRow] ("T1")
      Mode.season_number 20 none = Except.ok
        { target_player := playerInfoOfRow undraftedTargetRow
          similar_players := [], comparison_mode := Mode.season_number
          comparison_range := some (1, 1) } := by
  constructor
  · exact (find_similar_players_error_iff sqModel witStats [undraftedTargetRow]
      ("T1") Mode.age 20 none).2.1 (playerInfoOfRow undraftedTargetRow)
      (by rfl) (by simp [witStats, mkSeason]) (by rfl)
  · exact (find_similar_players_error_iff sqModel witStats [undraftedTargetRow]
      ("T1") Mode.season_number 20 none).2.2
      (playerInfoOfRow undraftedTargetRow) 1 1
      [mkSeason ("T1") ("WR") 1 (some 100)]
      (by rfl) (by simp [witStats, mkSeason]) (by rfl) (by rfl)

/-- `List.min?` characterization over the rationals. -/
theorem ratMin?_eq_some_iff {l : List ℚ} {a : ℚ} :
    l.min? = some a ↔ a ∈ l ∧ ∀ b ∈ l, a ≤ b :=
  List.min?_eq_some_iff le_refl min_choice (fun _ _ _ => le_min_iff)

/-- `List.max?` characterization over the rationals. -/
theorem ratMax?_eq_some_iff {l : List ℚ} {a : ℚ} :
    l.max? = some a ↔ a ∈ l ∧ ∀ b ∈ l, b ≤ a :=
  List.max?_eq_some_iff le_refl max_choice (fun _ _ _ => max_le_iff)

/-- A value present after the mean-fill was present before, or is the
column mean. -/
theorem mem_presentVals {xs : List (Option ℚ)} {y : ℚ} :
    y ∈ presentVals xs ↔ some y ∈ xs := by
  rw [presentVals, List.mem_filterMap]
  constructor
  · rintro ⟨a, ha, hay⟩
    simp only [id] at hay
    rwa [hay] at ha
  · intro h
    exact ⟨some y, h, rfl⟩

/-- A value present after the mean-fill was present before, or is the
column mean. -/
theorem presentVals_fillCol (xs : List (Option ℚ)) :
    ∀ y ∈ presentVals (fillCol xs),
      y ∈ presentVals xs ∨ colMean xs = some y := by
  intro y hy
  rw [mem_presentVals, fillCol, List.mem_map] at hy
  obtain ⟨x0, hx0, hfx⟩ := hy
  cases x0 with
  | some v =>
    simp only [Option.some.injEq] at hfx
    left
    rw [mem_presentVals, ← hfx]
    exact hx0
  | none =>
    right
    simp only at hfx
    exact hfx

/-- A value present before the mean-fill is still present after. -/
theorem mem_presentVals_fillCol (xs : List (Option ℚ)) :
    ∀ y ∈ presentVals xs, y ∈ presentVals (fillCol xs) := by
  intro y hy
  rw [mem_presentVals] at hy
  rw [mem_presentVals, fillCol, List.mem_map]
  exact ⟨some y, hy, rfl⟩

/-- The column mean is at least the column minimum. -/
theorem colMean_ge_min {xs : List (Option ℚ)} {m mn : ℚ}
    (hm : colMean xs = some m) (hmn : (presentVals xs).min? = some mn) :
    mn ≤ m := by
  obtain ⟨hmem, hall⟩ := ratMin?_eq_some_iff.mp hmn
  rw [colMean] at hm
  have hlen : (presentVals xs).length ≠ 0 :=
    fun h0 => by simp [List.length_eq_zero.mp h0] at hmem
  rw [if_neg (by simpa using hlen)] at hm
  injection hm with hm2
  have hlow := List.card_nsmul_le_sum (presentVals xs) mn hall
  rw [nsmul_eq_mul] at hlow
  have hpos : (0 : ℚ) < (presentVals xs).length := by
    exact_mod_cast Nat.pos_of_ne_zero hlen
  rw [← hm2, le_div_iff₀ hpos]
  linarith

/-- The column mean is at most the column maximum. -/
theorem colMean_le_max {xs : List (Option ℚ)} {m mx : ℚ}
    (hm : colMean xs = some m) (hmx : (presentVals xs).max? = some mx) :
    m ≤ mx := by
  obtain ⟨hmem, hall⟩ := ratMax?_eq_some_iff.mp hmx
  rw [colMean] at hm
  have hlen : (presentVals xs).length ≠ 0 :=
    fun h0 => by simp [List.length_eq_zero.mp h0] at hmem
  rw [if_neg (by simpa using hlen)] at hm
  injection hm with hm2
  have hhigh := List.sum_le_card_nsmul (presentVals xs) mx hall
  rw [nsmul_eq_mul] at hhigh
  have hpos : (0 : ℚ) < (presentVals xs).length := by
    exact_mod_cast Nat.pos_of_ne_zero hlen
  rw [← hm2, div_le_iff₀ hpos]
  linarith

/-- When no value is present the mean-fill changes nothing. -/
theorem fillCol_of_empty {xs : List (Option ℚ)}
    (h : presentVals xs = []) : fillCol xs = xs := by
  have hmean : colMean xs = none := by
    rw [colMean, h]
    simp
  rw [fillCol]
  have hcongr : ∀ x ∈ xs,
      (match x with | some v => some v | none => colMean xs) = x := by
    intro x _
    cases x with
    | some v => rfl
    | none => simpa using hmean
  rw [List.map_congr_left hcongr]
  exact List.map_id' xs

/-- The mean-fill leaves the column minimum unchanged. -/
theorem colMin_fillCol (xs : List (Option ℚ)) :
    colMin (fillCol xs) = colMin xs := by
  rw [colMin, colMin]
  cases hmn : (presentVals xs).min? with
  | none =>
    rw [List.min?_eq_none_iff] at hmn
    rw [fillCol_of_empty hmn, hmn]
    rfl
  | some mn =>
    rw [ratMin?_eq_some_iff]
    obtain ⟨hmem, hall⟩ := ratMin?_eq_some_iff.mp hmn
    refine ⟨mem_presentVals_fillCol xs mn hmem, ?_⟩
    intro b hb
    rcases presentVals_fillCol xs b hb with h | h
    · exact hall b h
    · exact colMean_ge_min h hmn

/-- The mean-fill leaves the column maximum unchanged. -/
theorem colMax_fillCol (xs : List (Option ℚ)) :
    colMax (fillCol xs) = colMax xs := by
  rw [colMax, colMax]
  cases hmx : (presentVals xs).max? with
  | none =>
    rw [List.max?_eq_none_iff] at hmx
    rw [fillCol_of_empty hmx, hmx]
    rfl
  | some mx =>
    rw [ratMax?_eq_some_iff]
    obtain ⟨hmem, hall⟩ := ratMax?_eq_some_iff.mp hmx
    refine ⟨mem_presentVals_fillCol xs mx hmem, ?_⟩
    intro b hb
    rcases presentVals_fillCol xs b hb with h | h
    · exact hall b h
    · exact colMean_le_max h hmx

/-- `getD` through a `map` at an in-bounds index. -/
theorem getD_map_of_lt {α β : Type} (f : α → β) (l : List α) (i : ℕ)
    (hi : i < l.length) (d : β) :
    (l.map f).getD i d = f (l.get ⟨i, hi⟩) := by
  have h2 : i < (l.map f).length := by
    rw [List.length_map]
    exact hi
  rw [List.getD_eq_getElem _ _ h2, List.getElem_map]
  rfl

/-- The mean-fill preserves length. -/
theorem fillCol_length (xs : List (Option ℚ)) :
    (fillCol xs).length = xs.length := by
  rw [fillCol, List.length_map]

/-- `getD` of the mean-fill at an in-bounds index. -/
theorem fillCol_getD {xs : List (Option ℚ)} {i : ℕ} (hi : i < xs.length) :
    (fillCol xs).getD i none =
      match xs.get ⟨i, hi⟩ with
      | some v => some v
      | none => colMean xs := by
  rw [fillCol, getD_map_of_lt _ _ i hi]

/-- Min-max normalization preserves length. -/
theorem normCol_length (xs : List (Option ℚ)) :
    (normCol xs).length = xs.length := by
  rcases hmn : colMin xs with _ | mn <;> rcases hmx : colMax xs with _ | mx <;>
    simp [normCol, hmn, hmx]
  split <;> simp

/-- `getD` of the normalized column in the non-degenerate branch. -/
theorem normCol_getD_of_lt {xs : List (Option ℚ)} {mn mx : ℚ} {i : ℕ}
    (hi : i < xs.length) (hmn : colMin xs = some mn)
    (hmx : colMax xs = some mx) (hlt : mn < mx) :
    (normCol xs).getD i none =
      Option.map (fun x => (x - mn) / (mx - mn)) (xs.get ⟨i, hi⟩) := by
  rw [normCol, hmn, hmx]
  simp only [hlt, if_true]
  rw [getD_map_of_lt _ _ i hi]

/-- `getD` of the normalized column in the degenerate (tie) branch. -/
theorem normCol_getD_of_tie {xs : List (Option ℚ)} {mn mx : ℚ} {i : ℕ}
    (hi : i < xs.length) (hmn : colMin xs = some mn)
    (hmx : colMax xs = some mx) (hnlt : ¬ mn < mx) :
    (normCol xs).getD i none = some (1/2) := by
  rw [normCol, hmn, hmx]
  simp only [hnlt, if_false]
  rw [getD_map_of_lt _ _ i hi]

/-- A row with a present euclidean score makes the column exist. -/
theorem hasEuclCol_of {entries : List BlendEntry} {i : ℕ}
    (hi : i < entries.length) {e : ℚ}
    (he : (entries.get ⟨i, hi⟩).eucl = some e) :
    hasEuclCol entries = true := by
  rw [hasEuclCol, List.any_eq_true]
  exact ⟨entries.get ⟨i, hi⟩, List.get_mem _ _ _, by rw [he]; rfl⟩

/-- A row with a present fantasy score makes the column exist. -/
theorem hasFantCol_of {entries : List BlendEntry} {i : ℕ}
    (hi : i < entries.length) {f : ℚ}
    (hf : (entries.get ⟨i, hi⟩).fant = some f) :
    hasFantCol entries = true := by
  rw [hasFantCol, List.any_eq_true]
  exact ⟨entries.get ⟨i, hi⟩, List.get_mem _ _ _, by rw [hf]; rfl⟩

/-- Evaluation of the blended score of row `i` from its filled component
values and the column extrema. -/
theorem similarityAt_eval (entries : List BlendEntry) (i : ℕ)
    (ef ff df mne mxe mnf mxf : ℚ)
    (hef : (euclFilled entries).getD i none = some ef)
    (hff : (fantFilled entries).getD i none = some ff)
    (hdf : (draftFilled entries).getD i none = some df)
    (hE : hasEuclCol entries = true) (hF : hasFantCol entries = true)
    (hmne : colMin (euclFilled entries) = some mne)
    (hmxe : colMax (euclFilled entries) = some mxe)
    (hmnf : colMin (fantFilled entries) = some mnf)
    (hmxf : colMax (fantFilled entries) = some mxf) :
    similarityAt entries i =
      0.4 * (if mne < mxe then (ef - mne) / (mxe - mne) else 1/2) +
      0.4 * (if mnf < mxf then (ff - mnf) / (mxf - mnf) else 1/2) +
      0.2 * (1 - df) := by
  have hie : i < (euclFilled entries).length := by
    by_contra hge
    rw [List.getD_eq_default _ _ (le_of_not_lt hge)] at hef
    cases hef
  have hif : i < (fantFilled entries).length := by
    by_contra hge
    rw [List.getD_eq_default _ _ (le_of_not_lt hge)] at hff
    cases hff
  rw [similarityAt, hE, hF, if_pos rfl, if_pos rfl, hdf]
  have heucl : ((euclNormCol entries).getD i none).getD 0 =
      (if mne < mxe then (ef - mne) / (mxe - mne) else 1/2) := by
    by_cases hlt : mne < mxe
    · rw [euclNormCol, normCol_getD_of_lt hie hmne hmxe hlt]
      have : (euclFilled entries).get ⟨i, hie⟩ = some ef := by
        rw [List.get_eq_getElem, ← List.getD_eq_getElem _ none hie]
        exact hef
      rw [this, if_pos hlt]
      rfl
    · rw [euclNormCol, normCol_getD_of_tie hie hmne hmxe hlt, if_neg hlt]
      rfl
  have hfant : ((fantNormCol entries).getD i none).getD 0 =
      (if mnf < mxf then (ff - mnf) / (mxf - mnf) else 1/2) := by
    by_cases hlt : mnf < mxf
    · rw [fantNormCol, normCol_getD_of_lt hif hmnf hmxf hlt]
      have : (fantFilled entries).get ⟨i, hif⟩ = some ff := by
        rw [List.get_eq_getElem, ← List.getD_eq_getElem _ none hif]
        exact hff
      rw [this, if_pos hlt]
      rfl
    · rw [fantNormCol, normCol_getD_of_tie hif hmnf hmxf hlt, if_neg hlt]
      rfl
  rw [heucl, hfant]
  rfl

/-- Row `i` of the blended frame. -/
theorem blendScores_getD (entries : List BlendEntry) (i : ℕ)
    (hi : i < entries.length) :
    (blendScores entries).getD i ("", 0) =
      ((entries.getD i default).gsis_id, similarityAt entries i) := by
  rw [blendScores]
  have hr : i < (List.range entries.length).length := by
    rw [List.length_range]
    exact hi
  rw [getD_map_of_lt _ _ i hr]
  have : (List.range entries.length).get ⟨i, hr⟩ = i := by
    rw [List.get_eq_getElem, List.getElem_range]
  rw [this]

/-- C1: the blended score of every candidate row equals
`0.4 * euclidean_norm + 0.4 * fantasy_norm + 0.2 * (1 - draft_score)`, where
each `_norm` is the min-max normalization of that component over the
candidate set and is the constant 0.5 whenever the component's maximum
equals its minimum. -/
theorem blend_similarity_formula (entries : List BlendEntry) (i : ℕ)
    (hi : i < entries.length) (e f d mne mxe mnf mxf : ℚ)
    (he : (entries.get ⟨i, hi⟩).eucl = some e)
    (hf : (entries.get ⟨i, hi⟩).fant = some f)
    (hd : (entries.get ⟨i, hi⟩).draft = some d)
    (hmne : (presentVals (entries.map (fun x => x.eucl))).min? = some mne)
    (hmxe : (presentVals (entries.map (fun x => x.eucl))).max? = some mxe)
    (hmnf : (presentVals (entries.map (fun x => x.fant))).min? = some mnf)
    (hmxf : (presentVals (entries.map (fun x => x.fant))).max? = some mxf) :
    (blendScores entries).getD i ("", 0) =
      ((entries.get ⟨i, hi⟩).gsis_id,
        0.4 * (if mne < mxe then (e - mne) / (mxe - mne) else 1/2) +
        0.4 * (if mnf < mxf then (f - mnf) / (mxf - mnf) else 1/2) +
        0.2 * (1 - d)) := by
  have hime : i < (entries.map (fun x => x.eucl)).length := by
    rw [List.length_map]
    exact hi
  have himf : i < (entries.map (fun x => x.fant)).length := by
    rw [List.length_map]
    exact hi
  have himd : i < (entries.map (fun x => x.draft)).length := by
    rw [List.length_map]
    exact hi
  have hgme : (entries.map (fun x => x.eucl)).get ⟨i, hime⟩ = some e := by
    simpa only [List.get_eq_getElem, List.getElem_map] using he
  have hgmf : (entries.map (fun x => x.fant)).get ⟨i, himf⟩ = some f := by
    simpa only [List.get_eq_getElem, List.getElem_map] using hf
  have hgmd : (entries.map (fun x => x.draft)).get ⟨i, himd⟩ = some d := by
    simpa only [List.get_eq_getElem, List.getElem_map] using hd
  have hef : (euclFilled entries).getD i none = some e := by
    rw [euclFilled, fillCol_getD hime, hgme]
  have hff : (fantFilled entries).getD i none = some f := by
    rw [fantFilled, fillCol_getD himf, hgmf]
  have hdf : (draftFilled entries).getD i none = some d := by
    rw [draftFilled, fillCol_getD himd, hgmd]
  have hmne2 : colMin (euclFilled entries) = some mne := by
    rw [euclFilled, colMin_fillCol]
    exact hmne
  have hmxe2 : colMax (euclFilled entries) = some mxe := by
    rw [euclFilled, colMax_fillCol]
    exact hmxe
  have hmnf2 : colMin (fantFilled entries) = some mnf := by
    rw [fantFilled, colMin_fillCol]
    exact hmnf
  have hmxf2 : colMax (fantFilled entries) = some mxf := by
    rw [fantFilled, colMax_fillCol]
    exact hmxf
  rw [blendScores_getD entries i hi]
  have hgd : entries.getD i default = entries.get ⟨i, hi⟩ := by
    rw [List.getD_eq_getElem _ _ hi, List.get_eq_getElem]
  rw [hgd, similarityAt_eval entries i e f d mne mxe mnf mxf hef hff hdf
    (hasEuclCol_of hi he) (hasFantCol_of hi hf) hmne2 hmxe2 hmnf2 hmxf2]

/-- Witness for C1 at a concrete two-candidate input. -/
theorem blend_similarity_formula_witness :
    (blendScores witEntriesC1).getD 0 ("", 0) =
      ((witEntriesC1.get ⟨0, by decide⟩).gsis_id,
        0.4 * (if (1 : ℚ) < 2 then ((1 : ℚ) - 1) / (2 - 1) else 1/2) +
        0.4 * (if (3 : ℚ) < 4 then ((3 : ℚ) - 3) / (4 - 3) else 1/2) +
        0.2 * (1 - (1 : ℚ))) :=
  blend_similarity_formula witEntriesC1 0 (by decide) 1 3 1 1 2 3 4
    (by decide) (by decide) (by decide) (by decide) (by decide) (by decide)
    (by decide)

/-- C8: a candidate missing a component score is assigned the cohort mean of
that component before min-max normalization, and the imputed value is what
enters the normalization and the blended score. -/
theorem blend_imputes_cohort_mean (entries : List BlendEntry) (i : ℕ)
    (hi : i < entries.length) (m f d mne mxe mnf mxf : ℚ)
    (he : (entries.get ⟨i, hi⟩).eucl = none)
    (hm : colMean (entries.map (fun x => x.eucl)) = some m)
    (hf : (entries.get ⟨i, hi⟩).fant = some f)
    (hd : (entries.get ⟨i, hi⟩).draft = some d)
    (hmne : (presentVals (entries.map (fun x => x.eucl))).min? = some mne)
    (hmxe : (presentVals (entries.map (fun x => x.eucl))).max? = some mxe)
    (hmnf : (presentVals (entries.map (fun x => x.fant))).min? = some mnf)
    (hmxf : (presentVals (entries.map (fun x => x.fant))).max? = some mxf) :
    (euclFilled entries).getD i none = some m ∧
    (blendScores entries).getD i ("", 0) =
      ((entries.get ⟨i, hi⟩).gsis_id,
        0.4 * (if mne < mxe then (m - mne) / (mxe - mne) else 1/2) +
        0.4 * (if mnf < mxf then (f - mnf) / (mxf - mnf) else 1/2) +
        0.2 * (1 - d)) := by
  have hime : i < (entries.map (fun x => x.eucl)).length := by
    rw [List.length_map]
    exact hi
  have himf : i < (entries.map (fun x => x.fant)).length := by
    rw [List.length_map]
    exact hi
  have himd : i < (entries.map (fun x => x.draft)).length := by
    rw [List.length_map]
    exact hi
  have hgme : (entries.map (fun x => x.eucl)).get ⟨i, hime⟩ = none := by
    simpa only [List.get_eq_getElem, List.getElem_map] using he
  have hgmf : (entries.map (fun x => x.fant)).get ⟨i, himf⟩ = some f := by
    simpa only [List.get_eq_getElem, List.getElem_map] using hf
  have hgmd : (entries.map (fun x => x.draft)).get ⟨i, himd⟩ = some d := by
    simpa only [List.get_eq_getElem, List.getElem_map] using hd
  have hef : (euclFilled entries).getD i none = some m := by
    rw [euclFilled, fillCol_getD hime, hgme]
    exact hm
  have hff : (fantFilled entries).getD i none = some f := by
    rw [fantFilled, fillCol_getD himf, hgmf]
  have hdf : (draftFilled entries).getD i none = some d := by
    rw [draftFilled, fillCol_getD himd, hgmd]
  have hmne2 : colMin (euclFilled entries) = some mne := by
    rw [euclFilled, colMin_fillCol]
    exact hmne
  have hmxe2 : colMax (euclFilled entries) = some mxe := by
    rw [euclFilled, colMax_fillCol]
    exact hmxe
  have hmnf2 : colMin (fantFilled entries) = some mnf := by
    rw [fantFilled, colMin_fillCol]
    exact hmnf
  have hmxf2 : colMax (fantFilled entries) = some mxf := by
    rw [fantFilled, colMax_fillCol]
    exact hmxf
  have hE : hasEuclCol entries = true := by
    have hmem := (ratMin?_eq_some_iff.mp hmne).1
    rw [mem_presentVals, List.mem_map] at hmem
    obtain ⟨x, hx, hxe⟩ := hmem
    rw [hasEuclCol, List.any_eq_true]
    exact ⟨x, hx, by rw [hxe]; rfl⟩
  refine ⟨hef, ?_⟩
  rw [blendScores_getD entries i hi]
  have hgd : entries.getD i default = entries.get ⟨i, hi⟩ := by
    rw [List.getD_eq_getElem _ _ hi, List.get_eq_getElem]
  rw [hgd, similarityAt_eval entries i m f d mne mxe mnf mxf hef hff hdf
    hE (hasFantCol_of hi hf) hmne2 hmxe2 hmnf2 hmxf2]

/-- Witness for C8 at a concrete three-candidate input: the candidate
missing its euclidean score is filled with the mean (here 2) of the other
two candidates' scores 1 and 3 before normalization. -/
theorem blend_imputes_cohort_mean_witness :
    (euclFilled witEntriesC8).getD 2 none = some 2 ∧
    (blendScores witEntriesC8).getD 2 ("", 0) =
      ((witEntriesC8.get ⟨2, by decide⟩).gsis_id,
        0.4 * (if (1 : ℚ) < 3 then ((2 : ℚ) - 1) / (3 - 1) else 1/2) +
        0.4 * (if (3 : ℚ) < 5 then ((5 : ℚ) - 3) / (5 - 3) else 1/2) +
        0.2 * (1 - (1 : ℚ))) :=
  blend_imputes_cohort_mean witEntriesC8 2 (by decide) 2 5 1 1 3 3 5
    (by decide)
    (by norm_num [witEntriesC8, colMean, presentVals, List.filterMap])
    (by decide) (by decide) (by decide) (by decide) (by decide) (by decide)

/-- Every entry of a min-max-normalized column read through the blend's
`getD` chain lies in [0, 1]. -/
theorem normCol_getD_bounds (xs : List (Option ℚ)) (i : ℕ) :
    0 ≤ ((normCol xs).getD i none).getD 0 ∧
    ((normCol xs).getD i none).getD 0 ≤ 1 := by
  by_cases hi : i < xs.length
  · rcases hmn : colMin xs with _ | mn <;> rcases hmx : colMax xs with _ | mx
    · simp only [normCol, hmn, hmx]
      rw [getD_map_of_lt _ _ i hi]
      norm_num
    · simp only [normCol, hmn, hmx]
      rw [getD_map_of_lt _ _ i hi]
      norm_num
    · simp only [normCol, hmn, hmx]
      rw [getD_map_of_lt _ _ i hi]
      norm_num
    · by_cases hlt : mn < mx
      · rw [normCol_getD_of_lt hi hmn hmx hlt]
        cases hx : xs.get ⟨i, hi⟩ with
        | none => norm_num
        | some x =>
          simp only [Option.map_some']
          have hxmem : x ∈ presentVals xs := by
            rw [mem_presentVals, ← hx]
            exact List.get_mem _ _ _
          have h1 := (ratMin?_eq_some_iff.mp hmn).2 x hxmem
          have h2 := (ratMax?_eq_some_iff.mp hmx).2 x hxmem
          rw [Option.getD_some]
          constructor
          · apply div_nonneg <;> linarith
          · rw [div_le_one (by linarith)]
            linarith
      · rw [normCol_getD_of_tie hi hmn hmx hlt]
        norm_num
  · rw [List.getD_eq_default _ _ (by rw [normCol_length]; omega)]
    norm_num

/-- The mean of a column of values in [0, 1] lies in [0, 1]. -/
theorem colMean_unit_bounds {xs : List (Option ℚ)} {m : ℚ}
    (h : ∀ y ∈ presentVals xs, 0 ≤ y ∧ y ≤ 1)
    (hm : colMean xs = some m) : 0 ≤ m ∧ m ≤ 1 := by
  rw [colMean] at hm
  by_cases h0 : (presentVals xs).length = 0
  · rw [if_pos (by simpa using h0)] at hm
    cases hm
  · rw [if_neg (by simpa using h0)] at hm
    injection hm with hm2
    have hlow := List.card_nsmul_le_sum (presentVals xs) 0
      (fun x hx => (h x hx).1)
    have hhigh := List.sum_le_card_nsmul (presentVals xs) 1
      (fun x hx => (h x hx).2)
    rw [nsmul_eq_mul] at hlow hhigh
    have hpos : (0 : ℚ) < (presentVals xs).length := by
      exact_mod_cast Nat.pos_of_ne_zero h0
    constructor
    · rw [← hm2]
      apply div_nonneg (by linarith) (le_of_lt hpos)
    · rw [← hm2, div_le_one hpos]
      linarith

/-- The filled draft value read by the blend lies in [0, 1] whenever every
present draft score does. -/
theorem draftFilled_getD_bounds (entries : List BlendEntry) (i : ℕ)
    (hdr : ∀ x ∈ entries, ∀ v ∈ x.draft, 0 ≤ v ∧ v ≤ 1) :
    0 ≤ ((draftFilled entries).getD i none).getD (1/2) ∧
    ((draftFilled entries).getD i none).getD (1/2) ≤ 1 := by
  have hvals : ∀ y ∈ presentVals (entries.map (fun x => x.draft)),
      0 ≤ y ∧ y ≤ 1 := by
    intro y hy
    rw [mem_presentVals, List.mem_map] at hy
    obtain ⟨x, hx, hxd⟩ := hy
    exact hdr x hx y (Option.mem_def.mpr hxd)
  by_cases hi : i < entries.length
  · have him : i < (entries.map (fun x => x.draft)).length := by
      rw [List.length_map]
      exact hi
    rw [draftFilled, fillCol_getD him]
    cases hx : (entries.map (fun x => x.draft)).get ⟨i, him⟩ with
    | some v =>
      simp only [Option.getD_some]
      apply hvals
      rw [mem_presentVals, ← hx]
      exact List.get_mem _ _ _
    | none =>
      cases hcm : colMean (entries.map (fun x => x.draft)) with
      | none => norm_num
      | some mv =>
        simp only [Option.getD_some]
        exact colMean_unit_bounds hvals hcm
  · rw [draftFilled, List.getD_eq_default _ _
      (by rw [fillCol_length, List.length_map]; omega)]
    norm_num

/-- The blended score of any row is non-negative, and vanishes only when
both existing normalized components vanish and the filled draft score is
exactly 1. -/
theorem similarityAt_nonneg_and_zero (entries : List BlendEntry) (i : ℕ)
    (hdr : ∀ x ∈ entries, ∀ v ∈ x.draft, 0 ≤ v ∧ v ≤ 1) :
    0 ≤ similarityAt entries i ∧
    (similarityAt entries i = 0 →
      (hasEuclCol entries = true →
        ((euclNormCol entries).getD i none).getD 0 = 0) ∧
      (hasFantCol entries = true →
        ((fantNormCol entries).getD i none).getD 0 = 0) ∧
      ((draftFilled entries).getD i none).getD (1/2) = 1) := by
  obtain ⟨hd0, hd1⟩ := draftFilled_getD_bounds entries i hdr
  obtain ⟨he0, he1⟩ := normCol_getD_bounds (euclFilled entries) i
  obtain ⟨hf0, hf1⟩ := normCol_getD_bounds (fantFilled entries) i
  rw [similarityAt]
  simp only [euclNormCol, fantNormCol]
  by_cases hE : hasEuclCol entries = true <;>
    by_cases hF : hasFantCol entries = true
  · rw [if_pos hE, if_pos hF]
    constructor
    · linarith
    · intro h0
      refine ⟨fun _ => by linarith, fun _ => by linarith, by linarith⟩
  · rw [if_pos hE, if_neg hF]
    constructor
    · linarith
    · intro h0
      refine ⟨fun _ => by linarith, fun hc => absurd hc hF, by linarith⟩
  · rw [if_neg hE, if_pos hF]
    constructor
    · linarith
    · intro h0
      refine ⟨fun hc => absurd hc hE, fun _ => by linarith, by linarith⟩
  · rw [if_neg hE, if_neg hF]
    constructor
    · linarith
    · intro h0
      refine ⟨fun hc => absurd hc hE, fun hc => absurd hc hF, by linarith⟩

/-- Unpack membership in the blended frame. -/
theorem mem_blendScores {entries : List BlendEntry} {pr : String × ℚ}
    (h : pr ∈ blendScores entries) :
    ∃ i, i < entries.length ∧
      pr = ((entries.getD i default).gsis_id, similarityAt entries i) := by
  rw [blendScores, List.mem_map] at h
  obtain ⟨i, hir, hpr⟩ := h
  rw [List.mem_range] at hir
  exact ⟨i, hir, hpr.symm⟩

/-- The ranked list only reorders and truncates the blended frame. -/
theorem mem_rankScores {l : List (String × ℚ)} {k : ℕ} {pr : String × ℚ}
    (h : pr ∈ rankScores l k) : pr ∈ l := by
  rw [rankScores] at h
  exact (List.perm_insertionSort _ l).mem_iff.mp (List.take_subset _ _ h)

/-- C7 (amended): every peer in the ranked list has a non-negative
similarity score, and a zero score occurs exactly when the peer's normalized
euclidean and fantasy components are 0 (the cohort minimum, with strictly
positive spread) and its filled draft score is exactly 1 — which does not
require the peer to be identical to the target. -/
theorem ranked_scores_nonneg_and_zero (entries : List BlendEntry) (k : ℕ)
    (hdr : ∀ x ∈ entries, ∀ v ∈ x.draft, 0 ≤ v ∧ v ≤ 1) :
    ∀ pr ∈ rankScores (blendScores entries) k,
      0 ≤ pr.2 ∧
      (pr.2 = 0 → ∃ i, i < entries.length ∧
        pr.1 = (entries.getD i default).gsis_id ∧
        (hasEuclCol entries = true →
          ((euclNormCol entries).getD i none).getD 0 = 0) ∧
        (hasFantCol entries = true →
          ((fantNormCol entries).getD i none).getD 0 = 0) ∧
        ((draftFilled entries).getD i none).getD (1/2) = 1) := by
  intro pr hpr
  obtain ⟨i, hi, hpr2⟩ := mem_blendScores (mem_rankScores hpr)
  obtain ⟨hnn, hz⟩ := similarityAt_nonneg_and_zero entries i hdr
  subst hpr2
  refine ⟨hnn, fun h0 => ⟨i, hi, rfl, hz h0⟩⟩

/-- Concrete evaluation of the blend on `witEntriesC1`: candidate A sits at
both component minima with draft score 1 and gets similarity 0; candidate B
gets 0.4 + 0.4 + 0.2 = 1. -/
theorem rank_witEntriesC1_eval :
    blendScores witEntriesC1 = [(("A"), (0 : ℚ)), (("B"), 1)] ∧
    rankScores (blendScores witEntriesC1) 20 = [(("A"), (0 : ℚ)), (("B"), 1)] := by
  have h0 : similarityAt witEntriesC1 0 = 0 := by
    rw [similarityAt_eval witEntriesC1 0 1 3 1 1 2 3 4 (by decide) (by decide)
      (by decide) (by decide) (by decide) (by decide) (by decide) (by decide)
      (by decide)]
    norm_num
  have h1 : similarityAt witEntriesC1 1 = 1 := by
    rw [similarityAt_eval witEntriesC1 1 2 4 0 1 2 3 4 (by decide) (by decide)
      (by decide) (by decide) (by decide) (by decide) (by decide) (by decide)
      (by decide)]
    norm_num
  have hshape : blendScores witEntriesC1 =
      [(("A"), similarityAt witEntriesC1 0),
       (("B"), similarityAt witEntriesC1 1)] := rfl
  have hbs : blendScores witEntriesC1 = [(("A"), (0 : ℚ)), (("B"), 1)] := by
    rw [hshape, h0, h1]
  refine ⟨hbs, ?_⟩
  rw [hbs]
  decide

/-- C7 (amended) witness at a concrete input: the head of the ranked list of
`witEntriesC1` has a non-negative score. -/
theorem ranked_scores_nonneg_and_zero_witness :
    0 ≤ ((("A"), (0 : ℚ))).2 := by
  have hmem : (("A"), (0 : ℚ)) ∈ rankScores (blendScores witEntriesC1) 20 := by
    rw [rank_witEntriesC1_eval.2]
    decide
  exact (ranked_scores_nonneg_and_zero witEntriesC1 20 (by decide)
    (("A"), (0 : ℚ)) hmem).1

/-- C7 counterexample: candidate A appears in the returned ranked list with
similarity score 0, yet its euclidean_score is 1, not 0 — it is not
statistically identical to the target.  A zero blended score therefore does
not imply component-level identity with the target. -/
theorem ranked_zero_without_identity :
    ((("A"), (0 : ℚ)) ∈ rankScores (blendScores witEntriesC1) 20) ∧
    (∀ x ∈ witEntriesC1, x.gsis_id = "A" →
      x.eucl = some 1 ∧ ¬ (x.eucl = some 0 ∧ x.fant = some 0)) := by
  constructor
  · rw [rank_witEntriesC1_eval.2]
    decide
  · decide

/-- The concrete square-root stand-in is positive exactly on positive
inputs. -/
theorem sqModel_pos_iff : ∀ q : ℚ, 0 ≤ q → (0 < sqModel q ↔ 0 < q) := by
  intro q hq
  show 0 < max q 0 ↔ 0 < q
  rw [max_eq_left hq]

/-- The concrete square-root stand-in is non-negative. -/
theorem sqModel_nonneg : ∀ q : ℚ, 0 ≤ q → 0 ≤ sqModel q := by
  intro q _
  exact le_max_right q 0

/-- A sample variance, when defined, is non-negative. -/
theorem colVar_nonneg {xs : List (Option ℚ)} {v : ℚ}
    (h : colVar xs = some v) : 0 ≤ v := by
  rw [colVar] at h
  by_cases h2 : (presentVals xs).length < 2
  · rw [if_pos h2] at h
    cases h
  · rw [if_neg h2] at h
    injection h with h3
    rw [← h3]
    apply div_nonneg
    · apply List.sum_nonneg
      intro x hx
      rw [List.mem_map] at hx
      obtain ⟨y, _, hyx⟩ := hx
      rw [← hyx]
      positivity
    · have hlen : 2 ≤ (presentVals xs).length := by omega
      have : (2 : ℚ) ≤ (presentVals xs).length := by exact_mod_cast hlen
      linarith

/-- A defined sample variance forces a defined mean. -/
theorem colMean_of_var {xs : List (Option ℚ)} {v : ℚ}
    (h : colVar xs = some v) : ∃ m, colMean xs = some m := by
  rw [colVar] at h
  by_cases h2 : (presentVals xs).length < 2
  · rw [if_pos h2] at h
    cases h
  · refine ⟨(presentVals xs).sum / ((presentVals xs).length : ℚ), ?_⟩
    rw [colMean, if_neg (by omega)]

/-- C9: normalization of a stat column whose pooled standard deviation is
zero (variance 0) or undefined (NaN) yields the scaled value 0 for every row
— no NaN, no division by zero; for a positive variance the scaled value is
the z-score `(x - mean) / std` times the position weight (NaN inputs stay
NaN); and any unrecognized position falls back to the WR weight table.
`std = sq(variance)`, so under the square-root axioms `std > 0` holds
exactly when the variance is positive. -/
theorem normalize_stats_degenerate_and_weights (sq : ℚ → ℚ)
    (hsq : ∀ q, 0 ≤ q → (0 < sq q ↔ 0 < q))
    (df : List SeasonRow) (position : String) (c : StatCol) :
    ((colVar (df.map (fun s => s.stats c)) = none ∨
      colVar (df.map (fun s => s.stats c)) = some 0) →
      ∀ sr ∈ normalize_stats sq df position, sr.scaled c = some 0) ∧
    (∀ v, colVar (df.map (fun s => s.stats c)) = some v → 0 < v →
      ∀ m, colMean (df.map (fun s => s.stats c)) = some m →
      ∀ sr ∈ normalize_stats sq df position,
        sr.scaled c = (sr.row.stats c).map
          (fun x => (x - m) / sq v * positionWeights position c)) ∧
    (position ≠ ("QB") → position ≠ ("RB") → position ≠ ("WR") →
      position ≠ ("TE") → positionWeights position = wrWeights) := by
  refine ⟨?_, ?_, ?_⟩
  · intro hdeg sr hsr
    rw [normalize_stats, List.mem_map] at hsr
    obtain ⟨r, _, hr⟩ := hsr
    rw [← hr]
    show scaledValue sq (df.map (fun s => s.stats c))
      (positionWeights position c) (r.stats c) = some 0
    rw [scaledValue, colStd]
    rcases hdeg with hnone | hzero
    · rw [hnone]
      rfl
    · rw [hzero]
      show (if 0 < sq 0 then _ else some 0) = some 0
      rw [if_neg (by rw [hsq 0 le_rfl]; exact lt_irrefl 0)]
  · intro v hv hvpos m hm sr hsr
    rw [normalize_stats, List.mem_map] at hsr
    obtain ⟨r, _, hr⟩ := hsr
    rw [← hr]
    show scaledValue sq (df.map (fun s => s.stats c))
      (positionWeights position c) (r.stats c) =
      (r.stats c).map (fun x => (x - m) / sq v * positionWeights position c)
    rw [scaledValue, colStd, hv]
    show (if 0 < sq v then _ else some 0) = _
    rw [if_pos (by rw [hsq v (colVar_nonneg hv)]; exact hvpos), hm]
    cases r.stats c with
    | none => rfl
    | some xv => rfl
  · intro h1 h2 h3 h4
    rw [positionWeights, if_neg (by simpa using h1), if_neg (by simpa using h2),
      if_neg (by simpa using h3), if_neg (by simpa using h4)]

/-- Witness for C9: a zero-variance fantasy column scales to 0 on every row,
and an unrecognized position ("K") falls back to the WR weights. -/
theorem normalize_stats_degenerate_witness :
    (normalize_stats sqModel witVarStats ("WR")).map
      (fun sr => sr.scaled StatCol.fantasy_points_ppr) = [some 0, some 0] ∧
    positionWeights ("K") = wrWeights := by
  have hvar : colVar (witVarStats.map
      (fun s => s.stats StatCol.fantasy_points_ppr)) = some 0 := by
    norm_num [colVar, presentVals, witVarStats, mkSeason,
      List.filterMap_cons, List.filterMap_nil]
  have h := (normalize_stats_degenerate_and_weights sqModel sqModel_pos_iff
    witVarStats ("WR") StatCol.fantasy_points_ppr).1 (Or.inr hvar)
  have hK := (normalize_stats_degenerate_and_weights sqModel sqModel_pos_iff
    witVarStats ("K") StatCol.fantasy_points_ppr).2.2
    (by decide) (by decide) (by decide) (by decide)
  refine ⟨?_, hK⟩
  obtain ⟨a, b, hab⟩ : ∃ a b,
      normalize_stats sqModel witVarStats ("WR") = [a, b] := ⟨_, _, rfl⟩
  rw [hab, List.map_cons, List.map_cons, List.map_nil,
    h a (by rw [hab]; exact List.mem_cons_self _ _),
    h b (by rw [hab]; exact List.mem_cons_of_mem _ (List.mem_cons_self _ _))]

/-- C10: every per-unit distance contributed to the euclidean component is
non-negative (hence finite: it is a rational, produced after `.fillna(0)`),
and the distance depends only on the `fillna(0)`-image of the scaled rows —
a missing (NaN) scaled cell behaves exactly like the pooled z-score mean 0. -/
theorem eucl_contribs_fillna_nonneg (sq : ℚ → ℚ)
    (hsq : ∀ q, 0 ≤ q → 0 ≤ sq q) (mode : Mode)
    (target_stats peer_stats : List ScaledRow) :
    (∀ pr ∈ euclContribs sq mode target_stats peer_stats, 0 ≤ pr.2) ∧
    (∀ a b a2 b2 : ScaledRow,
      (∀ c, fillna0 (a.scaled c) = fillna0 (a2.scaled c)) →
      (∀ c, fillna0 (b.scaled c) = fillna0 (b2.scaled c)) →
      euclDist sq a b = euclDist sq a2 b2) := by
  have hd : ∀ a b : ScaledRow, 0 ≤ euclDist sq a b := by
    intro a b
    rw [euclDist]
    apply hsq
    apply List.sum_nonneg
    intro x hx
    rw [List.mem_map] at hx
    obtain ⟨c, _, hcx⟩ := hx
    rw [← hcx]
    positivity
  constructor
  · intro pr hpr
    rw [euclContribs, List.mem_flatMap] at hpr
    obtain ⟨v, _, hv⟩ := hpr
    rcases hfl : target_stats.filter
        (fun t => cmpVal mode t.row = some v) with _ | ⟨t, rest⟩
    · rw [hfl] at hv
      cases hv
    · rw [hfl] at hv
      rw [List.mem_map] at hv
      obtain ⟨p, _, hp⟩ := hv
      rw [← hp]
      exact hd t p
  · intro a b a2 b2 h1 h2
    rw [euclDist, euclDist]
    congr 1
    congr 1
    apply List.map_congr_left
    intro c _
    rw [h1 c, h2 c]

/-- Witness for C10: the single contributed distance between a target row
with all scaled cells missing and a peer row is non-negative, and that
all-missing row is compared exactly like an all-zero row. -/
theorem eucl_contribs_fillna_nonneg_witness :
    (euclDist sqModel witScaledT witScaledP =
      euclDist sqModel { witScaledT with scaled := fun _ => some 0 }
        witScaledP) ∧
    (0 ≤ euclDist sqModel witScaledT witScaledP) := by
  have hall := eucl_contribs_fillna_nonneg sqModel sqModel_nonneg
    Mode.season_number [witScaledT] [witScaledP]
  constructor
  · exact hall.2 witScaledT witScaledP
      { witScaledT with scaled := fun _ => some 0 } witScaledP
      (fun c => by norm_num [witScaledT, fillna0, noStats])
      (fun c => rfl)
  · have hmem : ((("P1"), euclDist sqModel witScaledT witScaledP)) ∈
        euclContribs sqModel Mode.season_number [witScaledT] [witScaledP] := by
      have hev : euclContribs sqModel Mode.season_number [witScaledT]
          [witScaledP] =
          [((("P1"), euclDist sqModel witScaledT witScaledP))] := rfl
      rw [hev]
      exact List.mem_singleton.mpr rfl
    exact hall.1 _ hmem

/-- `find?` of a key over a keyed map. -/
theorem find?_pair_map (ids : List String) (g : String → ℚ) (p : String) :
    (ids.map (fun pid => (pid, g pid))).find? (fun pr => pr.1 = p) =
      if p ∈ ids then some (p, g p) else none := by
  induction ids with
  | nil => simp
  | cons a t ih =>
    rw [List.map_cons]
    by_cases hap : a = p
    · subst hap
      rw [List.find?_cons_of_pos _ (by simp)]
      simp
    · rw [List.find?_cons_of_neg _ (by simpa using hap), ih]
      have hiff : (p ∈ a :: t) ↔ p ∈ t := by
        rw [List.mem_cons]
        constructor
        · rintro (h | h)
          · exact absurd h.symm hap
          · exact h
        · exact Or.inr
      rw [if_congr hiff rfl rfl]

/-- What the grouped-mean aggregation reports for one player id. -/
theorem lookupScore_scoresOfContribs (contribs : List (String × ℚ))
    (p : String) :
    lookupScore (scoresOfContribs contribs) p =
      if p ∈ contribs.map Prod.fst then
        some (listMean ((contribs.filter (fun c => c.1 = p)).map Prod.snd))
      else none := by
  rw [lookupScore, scoresOfContribs, find?_pair_map]
  by_cases hp : p ∈ (contribs.map Prod.fst).dedup
  · rw [if_pos hp, if_pos (List.mem_dedup.mp hp)]
    rfl
  · rw [if_neg hp, if_neg (fun h => hp (List.mem_dedup.mpr h))]
    rfl

/-- A key occurs among the first components exactly when filtering on it is
non-trivial. -/
theorem mem_map_fst_iff {l : List (String × ℚ)} {p : String} :
    p ∈ l.map Prod.fst ↔ l.filter (fun c => c.1 = p) ≠ [] := by
  rw [List.mem_map]
  constructor
  · rintro ⟨pr, hpr, hfst⟩ hnil
    have hmem : pr ∈ l.filter (fun c => c.1 = p) :=
      List.mem_filter.mpr ⟨hpr, by simp [hfst]⟩
    rw [hnil] at hmem
    cases hmem
  · intro hne
    rcases hfl : l.filter (fun c => c.1 = p) with _ | ⟨pr, rest⟩
    · exact absurd hfl hne
    · have hmem : pr ∈ l.filter (fun c => c.1 = p) := by
        rw [hfl]
        exact List.mem_cons_self _ _
      rw [List.mem_filter] at hmem
      exact ⟨pr, hmem.1, by simpa using hmem.2⟩

/-- Transport a per-value identity through the flat-map of per-value
blocks. -/
theorem flatMap_filter_map_snd (p : String) (vals : List ℤ)
    (B : ℤ → List (String × ℚ)) (S : ℤ → List ℚ)
    (hB : ∀ v ∈ vals, ((B v).filter (fun c => c.1 = p)).map Prod.snd = S v) :
    ((vals.flatMap B).filter (fun c => c.1 = p)).map Prod.snd =
      vals.flatMap S := by
  induction vals with
  | nil => rfl
  | cons a t ih =>
    rw [List.flatMap_cons, List.flatMap_cons, List.filter_append,
      List.map_append, hB a (List.mem_cons_self _ _),
      ih (fun v hv => hB v (List.mem_cons_of_mem _ hv))]

/-- A guarded `filterMap` is a `filter` followed by the `filterMap`. -/
theorem filterMap_guard {α β : Type} (l : List α) (q : α → Bool)
    (F : α → Option β) :
    l.filterMap (fun a => if q a then F a else none) =
      (l.filter q).filterMap F := by
  induction l with
  | nil => rfl
  | cons a t ih =>
    by_cases hq : q a = true <;>
      simp [List.filterMap_cons, List.filter_cons, hq, ih]

/-- The euclidean contributions of one peer, in order, are exactly its
claim-side per-window distances. -/
theorem euclContribs_filter_eq (sq : ℚ → ℚ) (mode : Mode)
    (target_stats peer_stats : List ScaledRow) (p : String) :
    ((euclContribs sq mode target_stats peer_stats).filter
      (fun c => c.1 = p)).map Prod.snd =
      specEuclDists sq mode target_stats peer_stats p := by
  rw [euclContribs, specEuclDists]
  apply flatMap_filter_map_snd
  intro v _
  rcases hfl : target_stats.filter
      (fun t => cmpVal mode t.row = some v) with _ | ⟨t, rest⟩
  · rw [hfl]
    rfl
  · rw [hfl]
    rw [List.filter_map, List.map_map]
    have hpred : (peer_stats.filter (fun r => cmpVal mode r.row = some v)).filter
        ((fun c : String × ℚ => decide (c.1 = p)) ∘
          (fun pr => (pr.row.gsis_id, euclDist sq t pr))) =
        peer_stats.filter (fun r => r.row.gsis_id = p ∧
          cmpVal mode r.row = some v) := by
      rw [List.filter_filter]
      apply List.filter_congr
      intro r _
      simp [Function.comp, and_comm]
    rw [hpred]
    rfl

/-- C4 (amended): for every peer, the euclidean component reports the
arithmetic mean of its per-window distances over the ten scaled stat
columns (the nine counting stats plus `fantasy_points_ppr`), and omits the
peer exactly when it has no comparable window value. -/
theorem euclidean_score_is_mean_of_distances (sq : ℚ → ℚ) (mode : Mode)
    (target_stats peer_stats : List ScaledRow) (p : String) :
    lookupScore (calculate_euclidean_similarity sq mode target_stats
        peer_stats) p =
      if specEuclDists sq mode target_stats peer_stats p = [] then none
      else some (listMean (specEuclDists sq mode target_stats peer_stats p)) := by
  rw [calculate_euclidean_similarity, lookupScore_scoresOfContribs]
  by_cases hp : p ∈ (euclContribs sq mode target_stats peer_stats).map Prod.fst
  · rw [if_pos hp, euclContribs_filter_eq]
    rw [if_neg ?hne]
    case hne =>
      rw [← euclContribs_filter_eq sq mode target_stats peer_stats p]
      intro hnil
      rw [mem_map_fst_iff] at hp
      exact hp (by rwa [List.map_eq_nil_iff] at hnil)
  · rw [if_neg hp]
    rw [mem_map_fst_iff] at hp
    push_neg at hp
    rw [if_pos]
    rw [← euclContribs_filter_eq sq mode target_stats peer_stats p, hp]
    rfl

/-- The per-value fantasy block, filtered to one peer and projected to its
deviations. -/
theorem fantasy_block_eq (mode : Mode) (v : ℤ) (p : String)
    (t : SeasonRow) (peer_stats : List SeasonRow) :
    ((fantasyBlock mode v t peer_stats).filter
      (fun c => c.1 = p)).map Prod.snd =
      fantasyBlockSpec mode v p t peer_stats := by
  rw [fantasyBlock, fantasyBlockSpec]
  rcases hts : t.stats StatCol.fantasy_points_ppr with _ | tf
  · rfl
  · show ((if tf = 0 then ([] : List (String × ℚ))
        else (peer_stats.filter (fun r => cmpVal mode r = some v)).filterMap
          (fun r => (r.stats StatCol.fantasy_points_ppr).map
            (fun pf => (r.gsis_id, |pf - tf| / max tf 1)))).filter
        (fun c => c.1 = p)).map Prod.snd =
      (if tf = 0 then ([] : List ℚ)
        else (peer_stats.filter (fun r => r.gsis_id = p ∧
            cmpVal mode r = some v)).filterMap
          (fun r => (r.stats StatCol.fantasy_points_ppr).map
            (fun pf => |pf - tf| / max tf 1)))
    by_cases htf : tf = 0
    · rw [if_pos htf, if_pos htf]
      rfl
    · rw [if_neg htf, if_neg htf]
      rw [List.filter_filterMap, List.map_filterMap]
      have hcongr : ∀ r ∈ peer_stats.filter
          (fun r => cmpVal mode r = some v),
          Option.map Prod.snd (Option.filter (fun c => decide (c.1 = p))
            ((r.stats StatCol.fantasy_points_ppr).map
              (fun pf => (r.gsis_id, |pf - tf| / max tf 1)))) =
          (if (fun r : SeasonRow => decide (r.gsis_id = p)) r = true then
            (r.stats StatCol.fantasy_points_ppr).map
              (fun pf => |pf - tf| / max tf 1)
          else none) := by
        intro r _
        cases hrs : r.stats StatCol.fantasy_points_ppr with
        | none => by_cases hg : r.gsis_id = p <;> simp [hg]
        | some pf =>
          by_cases hg : r.gsis_id = p <;> simp [Option.filter, hg]
      rw [List.filterMap_congr hcongr, filterMap_guard, List.filter_filter]
      have hpred : peer_stats.filter
          (fun a => decide (a.gsis_id = p) && decide (cmpVal mode a = some v)) =
          peer_stats.filter
            (fun r => decide (r.gsis_id = p ∧ cmpVal mode r = some v)) := by
        apply List.filter_congr
        intro r _
        simp
      rw [hpred]

/-- The fantasy contributions of one peer, in order, are exactly its
claim-side per-window relative deviations. -/
theorem fantasyContribs_filter_eq (mode : Mode)
    (target_stats peer_stats : List SeasonRow) (p : String) :
    ((fantasyContribs mode target_stats peer_stats).filter
      (fun c => c.1 = p)).map Prod.snd =
      specFantasyDevs mode target_stats peer_stats p := by
  rw [fantasyContribs, specFantasyDevs]
  apply flatMap_filter_map_snd
  intro v _
  rcases hfl : target_stats.filter
      (fun t => cmpVal mode t = some v) with _ | ⟨t, rest⟩
  · rfl
  · exact fantasy_block_eq mode v p t peer_stats

/-- C5: for every peer, the fantasy component reports the arithmetic mean of
its per-window relative deviations `|peer - target| / max(target, 1)`, taken
over the window values where the target's fantasy points are present and
nonzero and the peer's are present, and omits the peer exactly when there is
no such value. -/
theorem fantasy_score_is_mean_of_deviations (mode : Mode)
    (target_stats peer_stats : List SeasonRow) (p : String) :
    (lookupScore (calculate_fantasy_similarity mode target_stats peer_stats) p =
      if specFantasyDevs mode target_stats peer_stats p = [] then none
      else some (listMean (specFantasyDevs mode target_stats peer_stats p))) ∧
    lookupScore (calculate_fantasy_similarity Mode.season_number
      witFantasyT witFantasyP) ("P1") = some (29/840) := by
  constructor
  case right =>
    have hlook : lookupScore (calculate_fantasy_similarity Mode.season_number
        witFantasyT witFantasyP) ("P1") =
        some (listMean [|(310 : ℚ) - 300| / max 300 1,
          |(270 : ℚ) - 280| / max 280 1]) := rfl
    rw [hlook]
    norm_num [listMean]
  case left =>
  rw [calculate_fantasy_similarity, lookupScore_scoresOfContribs]
  by_cases hp : p ∈ (fantasyContribs mode target_stats peer_stats).map Prod.fst
  · rw [if_pos hp, fantasyContribs_filter_eq]
    rw [if_neg ?hne]
    case hne =>
      rw [← fantasyContribs_filter_eq mode target_stats peer_stats p]
      intro hnil
      rw [mem_map_fst_iff] at hp
      exact hp (by rwa [List.map_eq_nil_iff] at hnil)
  · rw [if_neg hp]
    rw [mem_map_fst_iff] at hp
    push_neg at hp
    rw [if_pos]
    rw [← fantasyContribs_filter_eq mode target_stats peer_stats p, hp]
    rfl

/-- C4 counterexample: the scaled vectors entering `cdist` have ten
components, not nine.  A peer differing from the target only in the scaled
`fantasy_points_ppr` column receives a euclidean_score of 9 (under the
witness square root), while the mean of the per-unit distances over the nine
counting-stat columns is 0 — so euclidean_score is not the mean of
nine-category distances. -/
theorem euclidean_nine_vs_ten_counterexample :
    lookupScore (calculate_euclidean_similarity sqModel Mode.season_number
        [witScaledT] [witScaledPF]) ("P1") =
      some (listMean [euclDist sqModel witScaledT witScaledPF]) ∧
    euclDist sqModel witScaledT witScaledPF = 9 ∧
    euclDistNine sqModel witScaledT witScaledPF = 0 ∧
    lookupScore (calculate_euclidean_similarity sqModel Mode.season_number
        [witScaledT] [witScaledPF]) ("P1") ≠
      some (listMean [euclDistNine sqModel witScaledT witScaledPF]) := by
  have hlook : lookupScore (calculate_euclidean_similarity sqModel
      Mode.season_number [witScaledT] [witScaledPF]) ("P1") =
      some (listMean [euclDist sqModel witScaledT witScaledPF]) := rfl
  have hd : euclDist sqModel witScaledT witScaledPF = 9 := by
    norm_num [euclDist, STAT_COLUMNS, witScaledT, witScaledPF, fillna0,
      noStats, sqModel]
  have h9 : euclDistNine sqModel witScaledT witScaledPF = 0 := by
    have hfilter : STAT_COLUMNS.filter
        (fun c => c ≠ StatCol.fantasy_points_ppr) =
        [StatCol.pass_yards, StatCol.pass_tds, StatCol.interceptions,
         StatCol.rush_yards, StatCol.rush_tds,
         StatCol.receptions, StatCol.receiving_yards, StatCol.receiving_tds,
         StatCol.targets] := by decide
    rw [euclDistNine, hfilter]
    norm_num [witScaledT, witScaledPF, fillna0, noStats, sqModel]
  refine ⟨hlook, hd, h9, ?_⟩
  rw [hlook, hd, h9]
  norm_num [listMean]

/-- Every score emitted by the draft-capital calculator lies in [0, 1]: the
neutral 0.5, the undrafted-peer 0.3, and the mean of two `max(0, 1 - x)`
clamps (each in [0, 1], also in the NaN case where the clamp yields 0).
This discharges, for the real pipeline, the draft-score bound assumed by the
blend-stage theorems. -/
theorem calculate_draft_similarity_bounds (players_df : List PlayerRow)
    (target_info : PlayerInfo) (peer_ids : List String) :
    ∀ pr ∈ calculate_draft_similarity players_df target_info peer_ids,
      0 ≤ pr.2 ∧ pr.2 ≤ 1 := by
  have hclamp : ∀ x : PyNum, ∀ c : ℚ, 0 < c →
      0 ≤ pyMax0 (pySubFrom 1 (pyDivC (pyAbs x) c)) ∧
      pyMax0 (pySubFrom 1 (pyDivC (pyAbs x) c)) ≤ 1 := by
    intro x c hc
    cases x with
    | pynone =>
      constructor <;> norm_num [pyAbs, pyDivC, pySubFrom, pyMax0]
    | nan =>
      constructor <;> norm_num [pyAbs, pyDivC, pySubFrom, pyMax0]
    | val a =>
      show 0 ≤ max 0 (1 - |a| / c) ∧ max 0 (1 - |a| / c) ≤ 1
      refine ⟨le_max_left 0 _, max_le (by norm_num) ?_⟩
      have habs : 0 ≤ |a| / c := div_nonneg (abs_nonneg a) (le_of_lt hc)
      linarith
  intro pr hpr
  rw [calculate_draft_similarity] at hpr
  by_cases hdp : target_info.draft_pick = PyNum.pynone
  · rw [if_pos hdp] at hpr
    rw [List.mem_map] at hpr
    obtain ⟨pid, _, hpid⟩ := hpr
    rw [← hpid]
    norm_num
  · rw [if_neg hdp] at hpr
    rw [List.mem_map] at hpr
    obtain ⟨peer, _, hpeer⟩ := hpr
    by_cases hna : pyIsNA peer.draft_pick = true
    · rw [if_pos hna] at hpeer
      rw [← hpeer]
      norm_num
    · rw [if_neg hna] at hpeer
      rw [← hpeer]
      show 0 ≤ draftScoreDrafted target_info peer ∧
        draftScoreDrafted target_info peer ≤ 1
      obtain ⟨hp0, hp1⟩ := hclamp
        (pySub peer.draft_pick target_info.draft_pick) (32 * 7) (by norm_num)
      obtain ⟨hq0, hq1⟩ := hclamp
        (pySub peer.draft_position_pick target_info.draft_position_pick) 15
        (by norm_num)
      rw [draftScoreDrafted]
      by_cases hcond : (pyTruthy target_info.draft_position_pick &&
          pyTruthy peer.draft_position_pick) = true
      · simp only [hcond, if_true]
        constructor
        · apply div_nonneg (by linarith) (by norm_num)
        · rw [div_le_one (by norm_num)]
          linarith
      · simp only [hcond, Bool.false_eq_true, if_false]
        constructor
        · apply div_nonneg (by linarith) (by norm_num)
        · rw [div_le_one (by norm_num)]
          linarith

end SimilarityV2
